import Mathlib

/-!
# API resource manager of the apigatewayv2 controller

Shallow embedding of `pkg/resource/api/custom_http_api.go` and
`pkg/resource/api/manager.go`.

Conventions of the embedding.

* A Go pointer field (`*string`, `*bool`, `*CORS`, ...) is an `Option`:
  `none` is the nil pointer, `some v` a pointer to `v`.
* A Go slice is an `Option (List _)`: `none` is the nil slice.
* A Go `error` is an `Option GoError`: `none` is the nil error. A helper
  returning `(*T, error)` with exactly one of the two non-nil is an
  `Except GoError T`.
* A Go method that talks to the backend or to the metrics sink takes the
  `World` before the call and returns the `World` after it.
* A run-time panic (nil pointer dereference, explicit `panic(...)`) is the
  `Run.panic` outcome.
-/

namespace ApiGatewayV2

/-! ## Go values -/

/-- Go `error` values that the two source files create or pass on. -/
inductive GoError where
  /-- The value of `errors.New(msg)`. -/
  | New (msg : String)
  /-- An error handed back by the backend client (`respErr`). -/
  | Sdk (code : String) (msg : String)
  /-- The sentinel `ackerr.Terminal`. -/
  | Terminal
  /-- The value of `ackrequeue.NeededAfter(nil, duration)`, a request to
  requeue after `duration` nanoseconds. -/
  | NeededAfter (duration : Nat)
  deriving DecidableEq, Repr

/-- Go `time.Time`, as a number of nanoseconds. -/
abbrev Time := Int

/-- Outcome of running a Go function: it panics or it returns. -/
inductive Run (α : Type) where
  | panic (msg : String)
  | ret (a : α)
  deriving DecidableEq, Repr

/-- Message of the run-time panic raised by dereferencing a nil pointer. -/
def nilDeref : String := "invalid memory address or nil pointer dereference"

/-! ## The custom resource (`apis/v1alpha1`)

The type declarations of `v1alpha1.API` are not part of the two source files;
the structures below list the fields that the source files read or write, with
the Go types those uses imply. -/

/-- Modelled from the spec: the declaration of `v1alpha1.CORS` is missing;
these are the fields `updateApiInput` reads. The entries of the `[]*string`
fields are non-nil pointers (`updateApiInput` dereferences every entry), so an
entry is a `String`. `MaxAge` is an `*int64`. -/
structure CORS where
  AllowCredentials : Option Bool := none
  AllowHeaders : Option (List String) := none
  AllowMethods : Option (List String) := none
  AllowOrigins : Option (List String) := none
  ExposeHeaders : Option (List String) := none
  MaxAge : Option Int := none
  deriving DecidableEq, Repr

/-- Modelled from the spec: the declaration of `v1alpha1.APISpec` is missing;
these are the spec fields named in the source files ("a mapping of named
fields to optional values (each field present/absent, not merely
zero-valued)"). `Tags` is a `map[string]*string`, kept as an association
list. -/
structure APISpec where
  Basepath : Option String := none
  Body : Option String := none
  CORSConfiguration : Option CORS := none
  CredentialsARN : Option String := none
  Description : Option String := none
  DisableExecuteAPIEndpoint : Option Bool := none
  DisableSchemaValidation : Option Bool := none
  FailOnWarnings : Option Bool := none
  Name : Option String := none
  ProtocolType : Option String := none
  RouteKey : Option String := none
  RouteSelectionExpression : Option String := none
  Tags : Option (List (String × Option String)) := none
  Target : Option String := none
  Version : Option String := none
  deriving DecidableEq, Repr

/-- A status condition (`ackv1alpha1.Condition`): the fields read by
`onError` (`Type_` is the Go field `Type`), plus message and reason. -/
structure Condition where
  Type_ : String
  Status : String
  Message : Option String := none
  Reason : Option String := none
  deriving DecidableEq, Repr

/-- Modelled from the spec: the declaration of `v1alpha1.APIStatus` is
missing; these are the status fields that the source files write, and the
condition list read through `Conditions()`. `CreatedDate` is a
`*metav1.Time`; the entries of `ImportInfo` and `Warnings` are pointers to
fresh strings. -/
structure APIStatus where
  Conditions : Option (List Condition) := none
  APIEndpoint : Option String := none
  APIGatewayManaged : Option Bool := none
  APIID : Option String := none
  CreatedDate : Option Time := none
  ImportInfo : Option (List String) := none
  Warnings : Option (List String) := none
  deriving DecidableEq, Repr

/-- The custom resource object `v1alpha1.API`. -/
structure API where
  Spec : APISpec := {}
  Status : APIStatus := {}
  deriving DecidableEq, Repr

/-- The Go struct `resource`, a wrapper around the pointer `ko *v1alpha1.API`. -/
structure resource where
  ko : Option API
  deriving DecidableEq, Repr

/-! ## Backend client (`aws-sdk-go-v2/service/apigatewayv2`) -/

/-- Request of the `ImportApi` verb. -/
structure ImportApiInput where
  Basepath : Option String := none
  Body : Option String := none
  FailOnWarnings : Option Bool := none
  deriving DecidableEq, Repr

/-- Request of the `ReimportApi` verb. -/
structure ReimportApiInput where
  ApiId : Option String := none
  Basepath : Option String := none
  Body : Option String := none
  FailOnWarnings : Option Bool := none
  deriving DecidableEq, Repr

/-- The SDK type `apigatewayv2types.Cors`. -/
structure Cors where
  AllowCredentials : Option Bool := none
  AllowHeaders : Option (List String) := none
  AllowMethods : Option (List String) := none
  AllowOrigins : Option (List String) := none
  ExposeHeaders : Option (List String) := none
  MaxAge : Option Int := none
  deriving DecidableEq, Repr

/-- Request of the `UpdateApi` verb. -/
structure UpdateApiInput where
  ApiId : Option String := none
  CorsConfiguration : Option Cors := none
  CredentialsArn : Option String := none
  Description : Option String := none
  DisableExecuteApiEndpoint : Option Bool := none
  DisableSchemaValidation : Option Bool := none
  Name : Option String := none
  RouteKey : Option String := none
  RouteSelectionExpression : Option String := none
  Target : Option String := none
  Version : Option String := none
  deriving DecidableEq, Repr

/-- The response fields that `importApi`, `reimportApi` and `updateApi` read;
`ImportApiOutput`, `ReimportApiOutput` and `UpdateApiOutput` agree on them. -/
structure ApiOutput where
  ApiEndpoint : Option String := none
  ApiGatewayManaged : Option Bool := none
  ApiId : Option String := none
  CreatedDate : Option Time := none
  ImportInfo : Option (List String) := none
  Warnings : Option (List String) := none
  deriving DecidableEq, Repr

/-- The backend client `rm.sdkapi`. A verb answers a request with a response
or with an error (the pair `resp, respErr` of the source, of which exactly one
is non-nil). -/
structure Client where
  ImportApi : ImportApiInput → Except GoError ApiOutput
  ReimportApi : ReimportApiInput → Except GoError ApiOutput
  UpdateApi : UpdateApiInput → Except GoError ApiOutput

/-- One invocation of a backend verb, with its request. -/
inductive SdkCall where
  | ImportApi (input : ImportApiInput)
  | ReimportApi (input : ReimportApiInput)
  | UpdateApi (input : UpdateApiInput)
  deriving DecidableEq, Repr

/-- One invocation of `rm.metrics.RecordAPICall(opType, opID, err)`. -/
structure APICallRecord where
  opType : String
  opID : String
  err : Option GoError
  deriving DecidableEq, Repr

/-- Everything outside the Go values that the operations act on: the backend
verbs invoked so far, the call metrics recorded so far, and the resources
whose backend state `sdkFind` has been asked to read so far, oldest first. -/
structure World where
  sdkCalls : List SdkCall := []
  metrics : List APICallRecord := []
  reads : List resource := []
  deriving DecidableEq, Repr

/-- The Go type `acktags.Tags`, a `map[string]string`, kept as an association
list. -/
abbrev Tags := List (String × String)

/-- The functions of the package that `EnsureTags` and `mirrorAWSTags` call and
whose bodies are not part of the two source files; they are parameters.
`syncAWSTags a b` gives the contents of `a` after the call. -/
structure TagFuncs where
  convertToOrderedACKTags : Option (List (String × Option String)) → Tags × List String
  fromACKTags : Tags → List String → Option (List (String × Option String))
  syncAWSTags : Tags → Tags → Tags

/-- The Go struct `resourceManager`: the backend client, and the methods
`setStatusDefaults`, `sdkFind` and `updateConditions`, whose bodies are not
part of the two source files and are therefore parameters. `sdkFind r` is the
pair `(latest, err)` the backend read gives for `r`; that the read took place
is recorded in `World.reads` by the caller. -/
structure resourceManager where
  sdkapi : Client
  setStatusDefaults : API → API
  sdkFind : resource → Option resource × Option GoError
  updateConditions : resource → Bool → Option GoError → Option resource × Bool

/-- What `customCreateApi`, `customUpdateApi`, `importApi`, `reimportApi` and
`updateApi` leave behind: the two return values, the object behind the
argument pointer after the call, and the world after the call. -/
structure OpReturn where
  res : Option resource
  err : Option GoError
  desired : resource
  world : World
  deriving DecidableEq, Repr

/-- What the methods of `manager.go` leave behind: the two return values, the
object behind the argument after the call, and the world after the call. An
`acktypes.AWSResource` is an `Option resource`, `none` being nil. -/
structure ManagerReturn where
  res : Option resource
  err : Option GoError
  arg : Option resource
  world : World
  deriving DecidableEq, Repr

/-! ## `go-cmp` -/

/-- Equality of two slices under `cmpopts.EquateEmpty()`: two slices of
length zero are equal whether or not they are nil. -/
def cmpEqualSlice {α : Type} [DecidableEq α] (x y : Option (List α)) : Bool :=
  let lx := (x.getD []).length
  let ly := (y.getD []).length
  if lx = 0 ∧ ly = 0 then true else decide (x = y)

/-- Equality of two string maps under `cmpopts.EquateEmpty()`: two maps of
length zero are equal whether or not they are nil; otherwise both are
non-nil and hold the same keys with equal values. -/
def cmpEqualMap (x y : Option (List (String × Option String))) : Bool :=
  let lx := (x.getD []).length
  let ly := (y.getD []).length
  if lx = 0 ∧ ly = 0 then true
  else
    match x, y with
    | some mx, some my =>
      decide (lx = ly) && mx.all (fun kv => my.lookup kv.1 == some kv.2)
    | _, _ => false

/-- Equality of two `CORS` values under `cmp.Equal` with `EquateEmpty`. -/
def cmpEqualCORS (x y : CORS) : Bool :=
  decide (x.AllowCredentials = y.AllowCredentials)
    && cmpEqualSlice x.AllowHeaders y.AllowHeaders
    && cmpEqualSlice x.AllowMethods y.AllowMethods
    && cmpEqualSlice x.AllowOrigins y.AllowOrigins
    && cmpEqualSlice x.ExposeHeaders y.ExposeHeaders
    && decide (x.MaxAge = y.MaxAge)

/-- Equality of two `*CORS` pointers under `cmp.Equal`: both nil, or both
non-nil with equal pointees. -/
def cmpEqualCORSPtr (x y : Option CORS) : Bool :=
  match x, y with
  | none, none => true
  | some a, some b => cmpEqualCORS a b
  | _, _ => false

/-- The call `cmp.Equal(x, y, cmpopts.EquateEmpty())` on two `APISpec`
values: field by field, a nil pointer being equal only to a nil pointer. -/
def cmpEqualAPISpec (x y : APISpec) : Bool :=
  decide (x.Basepath = y.Basepath)
    && decide (x.Body = y.Body)
    && cmpEqualCORSPtr x.CORSConfiguration y.CORSConfiguration
    && decide (x.CredentialsARN = y.CredentialsARN)
    && decide (x.Description = y.Description)
    && decide (x.DisableExecuteAPIEndpoint = y.DisableExecuteAPIEndpoint)
    && decide (x.DisableSchemaValidation = y.DisableSchemaValidation)
    && decide (x.FailOnWarnings = y.FailOnWarnings)
    && decide (x.Name = y.Name)
    && decide (x.ProtocolType = y.ProtocolType)
    && decide (x.RouteKey = y.RouteKey)
    && decide (x.RouteSelectionExpression = y.RouteSelectionExpression)
    && cmpEqualMap x.Tags y.Tags
    && decide (x.Target = y.Target)
    && decide (x.Version = y.Version)

/-! ## `custom_http_api.go` -/

/-- The Go conversion `int32(x)` of an `int64`: the low 32 bits, signed. -/
def toInt32 (x : Int) : Int := (x + 2 ^ 31) % 2 ^ 32 - 2 ^ 31

/-- Source `importFieldsPresent`: is one of `Body`, `Basepath`,
`FailOnWarnings` present. -/
def importFieldsPresent (api : API) : Bool :=
  if api.Spec.Body ≠ none ∨ api.Spec.Basepath ≠ none ∨ api.Spec.FailOnWarnings ≠ none then
    true
  else
    false

/-- Source `validateImportApiInputFields`. -/
def validateImportApiInputFields (api : API) : Option GoError :=
  if api.Spec.Body = none then
    let errorMessage := ""
    let errorMessage :=
      if api.Spec.FailOnWarnings ≠ none then errorMessage ++ "'FailOnWarnings'"
      else errorMessage
    let errorMessage :=
      if api.Spec.Basepath ≠ none then
        if errorMessage = "" then errorMessage ++ "'Basepath'"
        else errorMessage ++ " and 'Basepath'"
      else errorMessage
    let errorMessage :=
      errorMessage ++ " field(s) can only be used with 'Body' field for import-api operation"
    some (GoError.New errorMessage)
  else
    let specCopy := api.Spec
    let specCopy := { specCopy with Body := none }
    let specCopy := { specCopy with FailOnWarnings := none }
    let specCopy := { specCopy with Basepath := none }
    let specCopy := { specCopy with Tags := none }
    if cmpEqualAPISpec specCopy {} then
      none
    else
      some (GoError.New "only 'FailOnWarnings' and 'Basepath' fields can be used with 'Body' field")

/-- Source `validateReimportApiInputFields`. -/
def validateReimportApiInputFields (api : API) : Option GoError :=
  validateImportApiInputFields api

/-- Source `validateCreateApiInputFields`. -/
def validateCreateApiInputFields (api : API) : Option GoError :=
  if api.Spec.Name = none ∨ api.Spec.ProtocolType = none then
    some (GoError.New
      "'Name' and 'ProtocolType' are required properties if 'Body' field is not present")
  else
    none

/-- Source `validateUpdateApiInputFields`. -/
def validateUpdateApiInputFields (api : API) : Option GoError :=
  validateCreateApiInputFields api

/-- Source `importApiInput`, on the object behind `r.ko`. -/
def importApiInput (ko : API) : Except GoError ImportApiInput :=
  let res : ImportApiInput := {}
  let res := if ko.Spec.Body ≠ none then { res with Body := ko.Spec.Body } else res
  let res := if ko.Spec.Basepath ≠ none then { res with Basepath := ko.Spec.Basepath } else res
  let res :=
    if ko.Spec.FailOnWarnings ≠ none then { res with FailOnWarnings := ko.Spec.FailOnWarnings }
    else res
  .ok res

/-- Source `reimportApiInput`, on the object behind `r.ko`. -/
def reimportApiInput (ko : API) : Except GoError ReimportApiInput :=
  let res : ReimportApiInput := {}
  if ko.Status.APIID ≠ none then
    let res := { res with ApiId := ko.Status.APIID }
    let res := if ko.Spec.Body ≠ none then { res with Body := ko.Spec.Body } else res
    let res := if ko.Spec.Basepath ≠ none then { res with Basepath := ko.Spec.Basepath } else res
    let res :=
      if ko.Spec.FailOnWarnings ≠ none then { res with FailOnWarnings := ko.Spec.FailOnWarnings }
      else res
    .ok res
  else
    .error (GoError.New "'APIID' is required input parameter for 'ReimportApi' operation")

/-- The `CORSConfiguration` block of source `updateApiInput`: the SDK value
`f2` built from a non-nil `r.ko.Spec.CORSConfiguration`. -/
def updateApiInputCors (c : CORS) : Cors :=
  let f2 : Cors := {}
  let f2 :=
    if c.AllowCredentials ≠ none then { f2 with AllowCredentials := c.AllowCredentials } else f2
  let f2 :=
    match c.AllowHeaders with
    | some l => { f2 with AllowHeaders := some (l.foldl (fun f2f1 f2f1iter => f2f1 ++ [f2f1iter]) []) }
    | none => f2
  let f2 :=
    match c.AllowMethods with
    | some l => { f2 with AllowMethods := some (l.foldl (fun f2f2 f2f2iter => f2f2 ++ [f2f2iter]) []) }
    | none => f2
  let f2 :=
    match c.AllowOrigins with
    | some l => { f2 with AllowOrigins := some (l.foldl (fun f2f3 f2f3iter => f2f3 ++ [f2f3iter]) []) }
    | none => f2
  let f2 :=
    match c.ExposeHeaders with
    | some l => { f2 with ExposeHeaders := some (l.foldl (fun f2f4 f2f4iter => f2f4 ++ [f2f4iter]) []) }
    | none => f2
  let f2 :=
    match c.MaxAge with
    | some m => { f2 with MaxAge := some (toInt32 m) }
    | none => f2
  f2

/-- Source `updateApiInput`, on the object behind `r.ko`. -/
def updateApiInput (ko : API) : Except GoError UpdateApiInput :=
  let res : UpdateApiInput := {}
  let res := if ko.Status.APIID ≠ none then { res with ApiId := ko.Status.APIID } else res
  let res :=
    match ko.Spec.CORSConfiguration with
    | some c => { res with CorsConfiguration := some (updateApiInputCors c) }
    | none => res
  let res :=
    if ko.Spec.CredentialsARN ≠ none then { res with CredentialsArn := ko.Spec.CredentialsARN }
    else res
  let res :=
    if ko.Spec.Description ≠ none then { res with Description := ko.Spec.Description } else res
  let res :=
    if ko.Spec.DisableExecuteAPIEndpoint ≠ none then
      { res with DisableExecuteApiEndpoint := ko.Spec.DisableExecuteAPIEndpoint }
    else res
  let res :=
    if ko.Spec.DisableSchemaValidation ≠ none then
      { res with DisableSchemaValidation := ko.Spec.DisableSchemaValidation }
    else res
  let res := if ko.Spec.Name ≠ none then { res with Name := ko.Spec.Name } else res
  let res := if ko.Spec.RouteKey ≠ none then { res with RouteKey := ko.Spec.RouteKey } else res
  let res :=
    if ko.Spec.RouteSelectionExpression ≠ none then
      { res with RouteSelectionExpression := ko.Spec.RouteSelectionExpression }
    else res
  let res := if ko.Spec.Target ≠ none then { res with Target := ko.Spec.Target } else res
  let res := if ko.Spec.Version ≠ none then { res with Version := ko.Spec.Version } else res
  .ok res

/-- The error of a backend answer: `respErr`, nil on success. -/
def respErrOf {α : Type} (out : Except GoError α) : Option GoError :=
  match out with
  | .error e => some e
  | .ok _ => none

/-- The world after one more backend verb has been invoked. -/
def World.invoke (w : World) (c : SdkCall) : World :=
  { w with sdkCalls := w.sdkCalls ++ [c] }

/-- The world after `rm.metrics.RecordAPICall(opType, opID, err)`. -/
def World.RecordAPICall (w : World) (opType opID : String) (err : Option GoError) : World :=
  { w with metrics := w.metrics ++ [{ opType := opType, opID := opID, err := err }] }

/-- The block `if resp.ApiEndpoint != nil { ... } ... if resp.Warnings != nil
{ ... }` that `importApi`, `reimportApi` and `updateApi` each run on the
status of the copy `ko`, between `DeepCopy()` and `setStatusDefaults(ko)`.
The three copies of the block are the same text. -/
def mergeApiOutput (status : APIStatus) (resp : ApiOutput) : APIStatus :=
  let status :=
    if resp.ApiEndpoint ≠ none then { status with APIEndpoint := resp.ApiEndpoint } else status
  let status :=
    if resp.ApiGatewayManaged ≠ none then
      { status with APIGatewayManaged := resp.ApiGatewayManaged }
    else status
  let status := if resp.ApiId ≠ none then { status with APIID := resp.ApiId } else status
  let status :=
    match resp.CreatedDate with
    | some t => { status with CreatedDate := some t }
    | none => status
  let status :=
    match resp.ImportInfo with
    | some l =>
      let f9 := l.foldl (fun f9 f9iter => f9 ++ [f9iter]) []
      { status with ImportInfo := some f9 }
    | none => status
  let status :=
    match resp.Warnings with
    | some l =>
      let f15 := l.foldl (fun f15 f15iter => f15 ++ [f15iter]) []
      { status with Warnings := some f15 }
    | none => status
  status

/-- Source `importApi`. -/
def importApi (rm : resourceManager) (desired : resource) (w : World) : Run OpReturn :=
  match desired.ko with
  | none => .panic nilDeref
  | some dko =>
    match importApiInput dko with
    | .error err => .ret { res := none, err := some err, desired := desired, world := w }
    | .ok input =>
      let out := rm.sdkapi.ImportApi input
      let w := w.invoke (SdkCall.ImportApi input)
      let w := w.RecordAPICall "CREATE" "ImportApi" (respErrOf out)
      match out with
      | .error respErr =>
        .ret { res := none, err := some respErr, desired := desired, world := w }
      | .ok resp =>
        let ko := dko
        let ko := { ko with Status := mergeApiOutput ko.Status resp }
        let ko := rm.setStatusDefaults ko
        .ret { res := some { ko := some ko }, err := none, desired := desired, world := w }

/-- Source `reimportApi`. -/
def reimportApi (rm : resourceManager) (desired : resource) (w : World) : Run OpReturn :=
  match desired.ko with
  | none => .panic nilDeref
  | some dko =>
    match reimportApiInput dko with
    | .error err => .ret { res := none, err := some err, desired := desired, world := w }
    | .ok input =>
      let out := rm.sdkapi.ReimportApi input
      let w := w.invoke (SdkCall.ReimportApi input)
      let w := w.RecordAPICall "UPDATE" "ReimportApi" (respErrOf out)
      match out with
      | .error respErr =>
        .ret { res := none, err := some respErr, desired := desired, world := w }
      | .ok resp =>
        let ko := dko
        let ko := { ko with Status := mergeApiOutput ko.Status resp }
        let ko := rm.setStatusDefaults ko
        .ret { res := some { ko := some ko }, err := none, desired := desired, world := w }

/-- Source `updateApi`. -/
def updateApi (rm : resourceManager) (desired : resource) (w : World) : Run OpReturn :=
  match desired.ko with
  | none => .panic nilDeref
  | some dko =>
    match updateApiInput dko with
    | .error err => .ret { res := none, err := some err, desired := desired, world := w }
    | .ok input =>
      let out := rm.sdkapi.UpdateApi input
      let w := w.invoke (SdkCall.UpdateApi input)
      let w := w.RecordAPICall "UPDATE" "UpdateApi" (respErrOf out)
      match out with
      | .error respErr =>
        .ret { res := none, err := some respErr, desired := desired, world := w }
      | .ok resp =>
        let ko := dko
        let ko := { ko with Status := mergeApiOutput ko.Status resp }
        let ko := rm.setStatusDefaults ko
        .ret { res := some { ko := some ko }, err := none, desired := desired, world := w }

/-- Source `customCreateApi`. -/
def customCreateApi (rm : resourceManager) (r : resource) (w : World) : Run OpReturn :=
  match r.ko with
  | none => .panic nilDeref
  | some ko =>
    if importFieldsPresent ko then
      match validateImportApiInputFields ko with
      | some err => .ret { res := none, err := some err, desired := r, world := w }
      | none => importApi rm r w
    else
      match validateCreateApiInputFields ko with
      | some err => .ret { res := none, err := some err, desired := r, world := w }
      | none => .ret { res := none, err := none, desired := r, world := w }

/-- Source `customUpdateApi`; the unused `diffReporter` argument is left out. -/
def customUpdateApi (rm : resourceManager) (desired : resource) (latest : resource)
    (w : World) : Run OpReturn :=
  let _ := latest
  match desired.ko with
  | none => .panic nilDeref
  | some ko =>
    if importFieldsPresent ko then
      match validateReimportApiInputFields ko with
      | some err => .ret { res := none, err := some err, desired := desired, world := w }
      | none => reimportApi rm desired w
    else
      match validateUpdateApiInputFields ko with
      | some err => .ret { res := none, err := some err, desired := desired, world := w }
      | none => updateApi rm desired w

/-! ## `manager.go` -/

/-- The package variable `lateInitializeFieldNames`. -/
def lateInitializeFieldNames : List String := []

/-- The constant `ackv1alpha1.ConditionTypeTerminal`. -/
def ConditionTypeTerminal : String := "ACK.Terminal"

/-- The constant `ackv1alpha1.ConditionTypeResourceSynced`. -/
def ConditionTypeResourceSynced : String := "ACK.ResourceSynced"

/-- The constant `ackv1alpha1.ConditionTypeLateInitialized`. -/
def ConditionTypeLateInitialized : String := "ACK.LateInitialized"

/-- The constant `corev1.ConditionTrue`. -/
def ConditionTrue : String := "True"

/-- The constant `corev1.ConditionFalse`. -/
def ConditionFalse : String := "False"

/-- Rewrite the first condition of type `condType`, if there is one. -/
def updateFirstOfType (condType : String) (f : Condition → Condition) :
    List Condition → List Condition
  | [] => []
  | c :: cs => if c.Type_ = condType then f c :: cs else c :: updateFirstOfType condType f cs

/-- The runtime's condition setters (`ackcondition.SetLateInitialized`,
`ackcondition.SetSynced`), which are library code: the first condition of the
type gets the status, message and reason, a new condition being appended when
there is none. The transition time they also stamp is left out. -/
def setCondition (subject : Option resource) (condType status : String)
    (message reason : Option String) : Run (Option resource) :=
  match subject with
  | none => .panic nilDeref
  | some r =>
    match r.ko with
    | none => .panic nilDeref
    | some ko =>
      let allConds := ko.Status.Conditions.getD []
      let allConds :=
        if allConds.any (fun c => c.Type_ = condType) then
          updateFirstOfType condType
            (fun c => { c with Status := status, Message := message, Reason := reason }) allConds
        else
          allConds ++ [{ Type_ := condType, Status := status, Message := message,
                         Reason := reason }]
      .ret (some { ko := some { ko with Status := { ko.Status with
                                                    Conditions := some allConds } } })

/-- The runtime's `ackcondition.SetLateInitialized`. -/
def SetLateInitialized (subject : Option resource) (status : String)
    (message reason : Option String) : Run (Option resource) :=
  setCondition subject ConditionTypeLateInitialized status message reason

/-- The runtime's `ackcondition.SetSynced`. -/
def SetSynced (subject : Option resource) (status : String)
    (message reason : Option String) : Run (Option resource) :=
  setCondition subject ConditionTypeResourceSynced status message reason

/-- Source `mirrorAWSTags`: the object behind `a` after the call. -/
def mirrorAWSTags (tf : TagFuncs) (a b : Option resource) : Option resource :=
  match a, b with
  | some ra, some rb =>
    match ra.ko, rb.ko with
    | some ako, some bko =>
      let existingDesiredTags := ako.Spec.Tags
      let existingLatestTags := bko.Spec.Tags
      let (desiredTags, desiredTagKeyOrder) := tf.convertToOrderedACKTags existingDesiredTags
      let (latestTags, _) := tf.convertToOrderedACKTags existingLatestTags
      let desiredTags := tf.syncAWSTags desiredTags latestTags
      some { ko := some { ako with Spec := { ako.Spec with
                                             Tags := tf.fromACKTags desiredTags
                                               desiredTagKeyOrder } } }
    | _, _ => a
  | _, _ => a

/-- Source `onError`. -/
def onError (rm : resourceManager) (r : Option resource) (err : Option GoError) :
    Run (Option resource × Option GoError) :=
  match r with
  | none => .ret (none, err)
  | some r =>
    let (r1, updated) := rm.updateConditions r false err
    if !updated then
      .ret (some r, err)
    else
      match r1 with
      | none => .panic nilDeref
      | some r1 =>
        match r1.ko with
        | none => .panic nilDeref
        | some ko1 =>
          if (ko1.Status.Conditions.getD []).any
              (fun condition =>
                condition.Type_ = ConditionTypeTerminal ∧ condition.Status = ConditionTrue) then
            .ret (some r1, some GoError.Terminal)
          else
            .ret (some r1, err)

/-- Source `onSuccess`. -/
def onSuccess (rm : resourceManager) (r : Option resource) :
    Run (Option resource × Option GoError) :=
  match r with
  | none => .ret (none, none)
  | some r =>
    let (r1, updated) := rm.updateConditions r true none
    if !updated then
      .ret (some r, none)
    else
      .ret (r1, none)

/-- Source `ReadOne`. A nil `res` panics, in the type assertion of
`concreteResource` or at `r.ko`. -/
def ReadOne (rm : resourceManager) (tf : TagFuncs) (res : Option resource) (w : World) :
    Run ManagerReturn :=
  match res with
  | none => .panic nilDeref
  | some r =>
    match r.ko with
    | none => .panic "resource manager's ReadOne() method received resource with nil CR object"
    | some _ =>
      let (observed, err) := rm.sdkFind r
      let w := { w with reads := w.reads ++ [r] }
      let r := mirrorAWSTags tf (some r) observed
      let out :=
        if err ≠ none then
          if observed ≠ none then onError rm observed err
          else onError rm r err
        else
          onSuccess rm observed
      match out with
      | .panic msg => .panic msg
      | .ret (res1, err1) => .ret { res := res1, err := err1, arg := r, world := w }

/-- Source `incompleteLateInitialization`. -/
def incompleteLateInitialization (res : Option resource) : Bool :=
  let _ := res
  false

/-- Source `lateInitializeFromReadOneOutput`. -/
def lateInitializeFromReadOneOutput (observed latest : Option resource) : Option resource :=
  let _ := observed
  latest

/-- Source `LateInitialize`. `ManagerReturn.arg` is the object behind `latest`
after the call (`ReadOne` and the condition setters work on `latestCopy`);
logging is left out. -/
def LateInitialize (rm : resourceManager) (tf : TagFuncs) (latest : Option resource)
    (w : World) : Run ManagerReturn :=
  if lateInitializeFieldNames.length = 0 then
    .ret { res := latest, err := none, arg := latest, world := w }
  else
    match latest with
    | none => .panic nilDeref
    | some l =>
      let latestCopy : Option resource := some l
      match ReadOne rm tf latestCopy w with
      | .panic msg => .panic msg
      | .ret read =>
        let observed := read.res
        let latestCopy := read.arg
        let w := read.world
        match read.err with
        | some err =>
          let lateInitConditionMessage :=
            "Unable to complete Read operation required for late initialization"
          let lateInitConditionReason := "Late Initialization Failure"
          match SetLateInitialized latestCopy ConditionFalse (some lateInitConditionMessage)
              (some lateInitConditionReason) with
          | .panic msg => .panic msg
          | .ret latestCopy =>
            match SetSynced latestCopy ConditionFalse none none with
            | .panic msg => .panic msg
            | .ret latestCopy =>
              .ret { res := latestCopy, err := some err, arg := latest, world := w }
        | none =>
          let lateInitializedRes := lateInitializeFromReadOneOutput observed latestCopy
          let incompleteInitialization := incompleteLateInitialization lateInitializedRes
          if incompleteInitialization then
            let lateInitConditionMessage :=
              "Late initialization did not complete, requeuing with delay of 5 seconds"
            let lateInitConditionReason := "Delayed Late Initialization"
            match SetLateInitialized lateInitializedRes ConditionFalse
                (some lateInitConditionMessage) (some lateInitConditionReason) with
            | .panic msg => .panic msg
            | .ret lateInitializedRes =>
              match SetSynced lateInitializedRes ConditionFalse none none with
              | .panic msg => .panic msg
              | .ret lateInitializedRes =>
                .ret { res := lateInitializedRes,
                       err := some (GoError.NeededAfter (5 * 1000000000)),
                       arg := latest, world := w }
          else
            let lateInitConditionMessage := "Late initialization successful"
            let lateInitConditionReason := "Late initialization successful"
            match SetLateInitialized lateInitializedRes ConditionTrue
                (some lateInitConditionMessage) (some lateInitConditionReason) with
            | .panic msg => .panic msg
            | .ret lateInitializedRes =>
              .ret { res := lateInitializedRes, err := none, arg := latest, world := w }

/-! ## Tags (`tags.go`, `acktags`)

The bodies of the tag functions are not part of the two source files. The
definitions below follow the description of the tag reconciler: a tag set is
an ordered map, "a parallel key-sequence + value-mapping", in which "no two
tags share a key". -/

/-- The keys of a `map[string]*string`, in order. -/
def tagKeys (m : Option (List (String × Option String))) : List String :=
  (m.getD []).map Prod.fst

/-- Add to `a` every tag of `b` whose key `a` does not hold yet, in the order
of `b`; a tag of `a` is never replaced. -/
def insertMissing (a b : Tags) : Tags :=
  b.foldl (fun result kv => if (result.lookup kv.1).isSome then result else result ++ [kv]) a

/-- Modelled from the spec: the body of `acktags.Merge` is missing. "merge
controller-injected default tags into the desired tag set without overriding
any key the user already set; keys not previously present are appended
preserving the order they are supplied in `defaults`." -/
def Merge (a b : Tags) : Tags :=
  insertMissing a b

/-- Modelled from the spec: the body of `convertToOrderedACKTags` is missing.
It gives the value mapping and the key sequence of the ordered map ("the
original insertion order of keys must be preserved"); a nil value pointer is
read as the empty string. -/
def convertToOrderedACKTags (tags : Option (List (String × Option String))) :
    Tags × List String :=
  let l := tags.getD []
  (l.map (fun kv => (kv.1, kv.2.getD "")), l.map Prod.fst)

/-- Modelled from the spec: the body of `fromACKTags` is missing. It rebuilds
the `map[string]*string` from the value mapping and the key sequence: first
the keys of `keyOrder` that `tags` holds, in that order, then the remaining
tags in the order of `tags` ("order of `desired`'s existing keys is preserved,
new keys are appended"). -/
def fromACKTags (tags : Tags) (keyOrder : List String) :
    Option (List (String × Option String)) :=
  some (keyOrder.filterMap (fun k => (tags.lookup k).map (fun v => (k, some v)))
    ++ (tags.filter (fun kv => kv.1 ∉ keyOrder)).map (fun kv => (kv.1, some kv.2)))

/-- Modelled from the spec: the body of `syncAWSTags` is missing. "for every
tag present in `observed` but absent from `desired`, copy it into `desired`
... only *adds* missing keys, never overrides"; the result is the contents of
`a` after the call. -/
def syncAWSTags (a b : Tags) : Tags :=
  insertMissing a b

/-- Modelled from the spec: the tag functions of `tags.go`, which are missing,
as described by the tag reconciler. -/
def specTagFuncs : TagFuncs :=
  { convertToOrderedACKTags := convertToOrderedACKTags,
    fromACKTags := fromACKTags,
    syncAWSTags := syncAWSTags }

/-- Source `EnsureTags`: the object behind `res` after the call, and the
returned error. `defaultTags` is the value of
`ackrt.GetDefaultTags(&rm.cfg, r.ko, md)`, library code that reads the
configuration, the metadata of `r.ko` and `md`. -/
def EnsureTags (tf : TagFuncs) (defaultTags : Tags) (res : Option resource) :
    Run (Option resource × Option GoError) :=
  match res with
  | none => .panic nilDeref
  | some r =>
    match r.ko with
    | none => .panic "resource manager's EnsureTags method received resource with nil CR object"
    | some ko =>
      let existingTags := ko.Spec.Tags
      let (resourceTags, keyOrder) := tf.convertToOrderedACKTags existingTags
      let tags := Merge resourceTags defaultTags
      .ret (some { ko := some { ko with Spec := { ko.Spec with
                                                  Tags := tf.fromACKTags tags keyOrder } } },
            none)

/-! ## Predicates used in the statements -/

/-- Every spec field other than `Body`, `Basepath`, `FailOnWarnings` and
`Tags` is absent. -/
def otherFieldsAbsent (s : APISpec) : Prop :=
  s.CORSConfiguration = none ∧ s.CredentialsARN = none ∧ s.Description = none
    ∧ s.DisableExecuteAPIEndpoint = none ∧ s.DisableSchemaValidation = none
    ∧ s.Name = none ∧ s.ProtocolType = none ∧ s.RouteKey = none
    ∧ s.RouteSelectionExpression = none ∧ s.Target = none ∧ s.Version = none

instance (s : APISpec) : Decidable (otherFieldsAbsent s) := by
  unfold otherFieldsAbsent; infer_instance

/-- The frame of `setStatusDefaults` that the merge relies on: it leaves the
spec and the six status fields written from a backend response as they are. -/
def keepsMergedFields (f : API → API) : Prop :=
  ∀ ko : API, (f ko).Spec = ko.Spec
    ∧ (f ko).Status.APIEndpoint = ko.Status.APIEndpoint
    ∧ (f ko).Status.APIGatewayManaged = ko.Status.APIGatewayManaged
    ∧ (f ko).Status.APIID = ko.Status.APIID
    ∧ (f ko).Status.CreatedDate = ko.Status.CreatedDate
    ∧ (f ko).Status.ImportInfo = ko.Status.ImportInfo
    ∧ (f ko).Status.Warnings = ko.Status.Warnings

/-- One status field after a merge: the response's value when the response
field is non-nil, the existing value when it is nil. -/
def mergedField {α : Type} (old resp new : Option α) : Prop :=
  (resp ≠ none → new = resp) ∧ (resp = none → new = old)

/-- The status `new` is the status `old` with the response `resp` merged in:
each of the six fields is the response's when that is non-nil and the old one
otherwise. -/
def statusMergedFrom (old : APIStatus) (resp : ApiOutput) (new : APIStatus) : Prop :=
  mergedField old.APIEndpoint resp.ApiEndpoint new.APIEndpoint
    ∧ mergedField old.APIGatewayManaged resp.ApiGatewayManaged new.APIGatewayManaged
    ∧ mergedField old.APIID resp.ApiId new.APIID
    ∧ mergedField old.CreatedDate resp.CreatedDate new.CreatedDate
    ∧ mergedField old.ImportInfo resp.ImportInfo new.ImportInfo
    ∧ mergedField old.Warnings resp.Warnings new.Warnings

/-- The result `ret` of an operation on the object `ko` is a success that
merged `resp`: no error, the caller's object as it was, and a returned
resource with the spec of `ko` and the status of `ko` merged with `resp`. -/
def mergedSuccess (ko : API) (resp : ApiOutput) (ret : OpReturn) : Prop :=
  ret.err = none ∧ ret.desired = { ko := some ko }
    ∧ ∃ ko1 : API, ret.res = some { ko := some ko1 } ∧ ko1.Spec = ko.Spec
        ∧ statusMergedFrom ko.Status resp ko1.Status

/-- The resource carries a condition of type `ACK.Terminal` with status
`True`. -/
def carriesTerminal (res : Option resource) : Prop :=
  ∃ r ko, res = some r ∧ r.ko = some ko
    ∧ ∃ c ∈ ko.Status.Conditions.getD [], c.Type_ = ConditionTypeTerminal ∧ c.Status = ConditionTrue

/-- What `onError` relies on from the method `updateConditions`, whose body is
not part of the two source files, for the resource `r` and the error `err`:
when it reports an update it hands over the updated resource, and it reports
no update only for a resource that does not carry `ACK.Terminal` = `True`. -/
def reportsTerminal (rm : resourceManager) (r : resource) (err : Option GoError) : Prop :=
  ((rm.updateConditions r false err).2 = true →
      ∃ ko1 : API, (rm.updateConditions r false err).1 = some { ko := some ko1 })
    ∧ ((rm.updateConditions r false err).2 = false → ¬ carriesTerminal (some r))

/-! ## Sample values -/

/-- A `setStatusDefaults` that fills in an empty condition list when the
status has none, used to build concrete resource managers. -/
def sampleSetStatusDefaults (ko : API) : API :=
  if ko.Status.Conditions = none then
    { ko with Status := { ko.Status with Conditions := some [] } }
  else ko

/-- A backend that answers every verb with the same response. -/
def okClient (resp : ApiOutput) : Client :=
  { ImportApi := fun _ => .ok resp, ReimportApi := fun _ => .ok resp,
    UpdateApi := fun _ => .ok resp }

/-- A backend that fails every verb with the same error. -/
def failClient (e : GoError) : Client :=
  { ImportApi := fun _ => .error e, ReimportApi := fun _ => .error e,
    UpdateApi := fun _ => .error e }

/-- A backend read that finds the resource as it is. -/
def sampleSdkFind (r : resource) : Option resource × Option GoError :=
  (some r, none)

/-- An `updateConditions` that records a failure as `ACK.ResourceSynced` =
`False` on a copy, and reports no change on success. -/
def sampleUpdateConditions (r : resource) (onSuccess : Bool) (err : Option GoError) :
    Option resource × Bool :=
  let _ := err
  if onSuccess then (none, false)
  else
    match setCondition (some r) ConditionTypeResourceSynced ConditionFalse none none with
    | .ret r1 => (r1, true)
    | .panic _ => (none, false)

/-- A response that reports an identifier and an endpoint only. -/
def sampleOutput : ApiOutput :=
  { ApiId := some "a1b2c3", ApiEndpoint := some "https://a1b2c3.example" }

/-- A resource manager whose backend answers every verb with `sampleOutput`. -/
def sampleManager : resourceManager :=
  { sdkapi := okClient sampleOutput, setStatusDefaults := sampleSetStatusDefaults,
    sdkFind := sampleSdkFind, updateConditions := sampleUpdateConditions }

/-- A resource manager whose backend fails every verb with a throttling
error. -/
def failingManager : resourceManager :=
  { sdkapi := failClient (GoError.Sdk "TooManyRequestsException" "slow down"),
    setStatusDefaults := sampleSetStatusDefaults,
    sdkFind := fun _ => (none, some (GoError.Sdk "TooManyRequestsException" "slow down")),
    updateConditions := sampleUpdateConditions }

/-- An import-class object: `Body`, `Basepath`, `FailOnWarnings` and `Tags`
set, no status yet. -/
def sampleImportApi : API :=
  { Spec := { Body := some "<openapi>...", Basepath := some "/v1", FailOnWarnings := some true,
              Tags := some [("team", some "a")] } }

/-- The same import-class object after a first import: the status holds an
identifier and one warning. -/
def sampleReimportApi : API :=
  { sampleImportApi with
    Status := { APIID := some "a1b2c3", Warnings := some ["unused path"] } }

/-- A create-class object: `Name` and `ProtocolType` set, with an identifier
in the status. -/
def sampleCreateApi : API :=
  { Spec := { Name := some "a", ProtocolType := some "HTTP" },
    Status := { APIID := some "a1b2c3" } }

/-- The sample create-class resource once it carries `ACK.Terminal` = `True`. -/
def terminalResource : resource :=
  { ko := some { sampleCreateApi with
                 Status := { sampleCreateApi.Status with
                             Conditions := some [{ Type_ := "ACK.Terminal",
                                                   Status := "True" }] } } }

/-- A backend rejection of the request. -/
def badRequest : GoError := GoError.Sdk "BadRequestException" "invalid body"

/-- The default tag that the controller injects in the examples. -/
def sampleDefaultTags : Tags := [("services.k8s.aws/controller-version", "v1")]

/-- The sample import-class object as the backend reports it: the user's tag
and one tag injected by the backend. -/
def sampleObservedApi : API :=
  { sampleImportApi with
    Spec := { sampleImportApi.Spec with
              Tags := some [("team", some "b"), ("aws:cloudformation:stack-name", some "s1")] } }

/-- A resource manager whose backend read reports `sampleObservedApi`. -/
def observingManager : resourceManager :=
  { sampleManager with sdkFind := fun _ => (some { ko := some sampleObservedApi }, none) }

end ApiGatewayV2

namespace ApiGatewayV2

/-! ## Operation selection and validation -/

/-- C1: when `Body` is absent, `validateImportApiInputFields` returns an
error; when `FailOnWarnings` or `Basepath` is present, its message names
exactly the present ones, followed by the fixed text; and `customCreateApi` on
such a spec (`Body` absent, `FailOnWarnings` or `Basepath` present) returns a
nil resource with that error, leaving the resource and the world as they
were. -/
theorem validateImportApiInputFields_body_absent (rm : resourceManager) (api : API) (w : World)
    (hBody : api.Spec.Body = none) :
    (∃ e, validateImportApiInputFields api = some e)
    ∧ (api.Spec.FailOnWarnings ≠ none → api.Spec.Basepath = none →
        validateImportApiInputFields api = some (GoError.New ("'FailOnWarnings'"
          ++ " field(s) can only be used with 'Body' field for import-api operation")))
    ∧ (api.Spec.FailOnWarnings = none → api.Spec.Basepath ≠ none →
        validateImportApiInputFields api = some (GoError.New ("'Basepath'"
          ++ " field(s) can only be used with 'Body' field for import-api operation")))
    ∧ (api.Spec.FailOnWarnings ≠ none → api.Spec.Basepath ≠ none →
        validateImportApiInputFields api = some (GoError.New ("'FailOnWarnings' and 'Basepath'"
          ++ " field(s) can only be used with 'Body' field for import-api operation")))
    ∧ (api.Spec.FailOnWarnings ≠ none ∨ api.Spec.Basepath ≠ none →
        customCreateApi rm { ko := some api } w
          = .ret { res := none, err := validateImportApiInputFields api,
                   desired := { ko := some api }, world := w }) := by
  refine ⟨?_, ?_, ?_, ?_, ?_⟩
  · simp [validateImportApiInputFields, hBody]
  · intro hF hB
    simp [validateImportApiInputFields, hBody, hF, hB]
  · intro hF hB
    simp [validateImportApiInputFields, hBody, hF, hB]
  · intro hF hB
    simp [validateImportApiInputFields, hBody, hF, hB]
  · intro h
    have hp : importFieldsPresent api = true := by
      simp [importFieldsPresent, hBody]
      tauto
    obtain ⟨e, he⟩ : ∃ e, validateImportApiInputFields api = some e := by
      simp [validateImportApiInputFields, hBody]
    simp [customCreateApi, hp, he]

/-- Instance of C1: a spec with only `Basepath` set is rejected by import
validation with the message naming `'Basepath'`, and `customCreateApi`
returns a nil resource with that error. -/
theorem validateImportApiInputFields_body_absent_witness :
    ({ Spec := { Basepath := some "/v1" } } : API).Spec.Body = none
    ∧ validateImportApiInputFields { Spec := { Basepath := some "/v1" } }
        = some (GoError.New
            "'Basepath' field(s) can only be used with 'Body' field for import-api operation")
    ∧ customCreateApi sampleManager
        { ko := some { Spec := { Basepath := some "/v1" } } } {}
        = .ret { res := none,
                 err := some (GoError.New
                   "'Basepath' field(s) can only be used with 'Body' field for import-api operation"),
                 desired := { ko := some { Spec := { Basepath := some "/v1" } } }, world := {} } := by
  have h := validateImportApiInputFields_body_absent
    sampleManager
    { Spec := { Basepath := some "/v1" } } {} rfl
  have hv := h.2.2.1 rfl (by simp)
  refine ⟨rfl, ?_, ?_⟩
  · rw [hv]; rfl
  · rw [h.2.2.2.2 (Or.inr (by simp)), hv]; rfl

/-- With the four import fields cleared, a spec compares equal to the empty
spec exactly when every other field is absent. -/
theorem cmpEqualAPISpec_cleared (s : APISpec) :
    cmpEqualAPISpec
        { s with Body := none, FailOnWarnings := none, Basepath := none, Tags := none } {} = true
      ↔ otherFieldsAbsent s := by
  unfold otherFieldsAbsent
  cases hC : s.CORSConfiguration <;>
    simp [cmpEqualAPISpec, cmpEqualCORSPtr, cmpEqualMap, hC, and_assoc]

/-- With `Body` present, import validation is decided by the other fields
alone. -/
theorem validateImportApiInputFields_of_body (a : API) (ha : a.Spec.Body ≠ none) :
    validateImportApiInputFields a
      = if otherFieldsAbsent a.Spec then none else some (GoError.New
          "only 'FailOnWarnings' and 'Basepath' fields can be used with 'Body' field") := by
  have hc := cmpEqualAPISpec_cleared a.Spec
  by_cases h : otherFieldsAbsent a.Spec
  · simp [validateImportApiInputFields, ha, h, hc.mpr h]
  · have hf : cmpEqualAPISpec
        { a.Spec with Body := none, FailOnWarnings := none, Basepath := none, Tags := none } {}
        = false := by
      cases hb : cmpEqualAPISpec
        { a.Spec with Body := none, FailOnWarnings := none, Basepath := none, Tags := none } {}
      · rfl
      · exact absurd (hc.mp hb) h
    simp [validateImportApiInputFields, ha, h, hf]

/-- C2: with `Body` present, `validateImportApiInputFields` returns no error
exactly when every spec field other than `Body`, `Basepath`,
`FailOnWarnings` and `Tags` is absent, returns the fixed "only ... can be
used with 'Body'" error otherwise, and its result is the same for any other
present `Body` and any other `Basepath`, `FailOnWarnings` and `Tags`. -/
theorem validateImportApiInputFields_body_present (api : API) (hBody : api.Spec.Body ≠ none) :
    (validateImportApiInputFields api = none ↔ otherFieldsAbsent api.Spec)
    ∧ (¬ otherFieldsAbsent api.Spec →
        validateImportApiInputFields api = some (GoError.New
          "only 'FailOnWarnings' and 'Basepath' fields can be used with 'Body' field"))
    ∧ (∀ (body : String) (basepath : Option String) (failOnWarnings : Option Bool)
        (tags : Option (List (String × Option String))),
        validateImportApiInputFields
            { api with Spec := { api.Spec with Body := some body, Basepath := basepath,
                                               FailOnWarnings := failOnWarnings, Tags := tags } }
          = validateImportApiInputFields api) := by
  refine ⟨?_, ?_, ?_⟩
  · rw [validateImportApiInputFields_of_body api hBody]
    by_cases h : otherFieldsAbsent api.Spec <;> simp [h]
  · intro h; rw [validateImportApiInputFields_of_body api hBody]; simp [h]
  · intro body basepath failOnWarnings tags
    rw [validateImportApiInputFields_of_body api hBody,
      validateImportApiInputFields_of_body _ (by simp)]
    rfl

/-- Instance of C2: a spec with `Body`, `Basepath` and `Tags` passes import
validation, and adding `Name` makes it fail with the fixed error. -/
theorem validateImportApiInputFields_body_present_witness :
    validateImportApiInputFields
        { Spec := { Body := some "<openapi>", Basepath := some "/v1",
                    Tags := some [("team", some "a")] } } = none
    ∧ validateImportApiInputFields { Spec := { Body := some "<openapi>", Name := some "a" } }
        = some (GoError.New
            "only 'FailOnWarnings' and 'Basepath' fields can be used with 'Body' field") :=
  ⟨(validateImportApiInputFields_body_present
      { Spec := { Body := some "<openapi>", Basepath := some "/v1",
                  Tags := some [("team", some "a")] } } (by simp)).1.mpr (by decide),
   (validateImportApiInputFields_body_present
      { Spec := { Body := some "<openapi>", Name := some "a" } } (by simp)).2.1 (by decide)⟩

/-- The request built by `importApiInput` carries the three import fields of
the spec. -/
theorem importApiInput_eq (ko : API) :
    importApiInput ko = .ok { Basepath := ko.Spec.Basepath, Body := ko.Spec.Body,
                              FailOnWarnings := ko.Spec.FailOnWarnings } := by
  cases h1 : ko.Spec.Body <;> cases h2 : ko.Spec.Basepath <;>
    cases h3 : ko.Spec.FailOnWarnings <;> simp [importApiInput, h1, h2, h3]

/-- With a status `APIID`, the request built by `reimportApiInput` carries it
and the three import fields of the spec. -/
theorem reimportApiInput_eq (ko : API) (h : ko.Status.APIID ≠ none) :
    reimportApiInput ko = .ok { ApiId := ko.Status.APIID, Basepath := ko.Spec.Basepath,
                                Body := ko.Spec.Body,
                                FailOnWarnings := ko.Spec.FailOnWarnings } := by
  cases h1 : ko.Spec.Body <;> cases h2 : ko.Spec.Basepath <;>
    cases h3 : ko.Spec.FailOnWarnings <;> simp [reimportApiInput, h, h1, h2, h3]

/-- Source `updateApiInput` never fails. -/
theorem updateApiInput_ok (ko : API) : ∃ input, updateApiInput ko = .ok input :=
  ⟨_, rfl⟩

/-- What `importApi` leaves in the world: one `ImportApi` call with the
request of `importApiInput`, and one metric for it. -/
theorem importApi_world (rm : resourceManager) (ko : API) (w : World) :
    ∃ ret, importApi rm { ko := some ko } w = .ret ret
      ∧ ret.desired = { ko := some ko }
      ∧ ret.world = (w.invoke (SdkCall.ImportApi
            { Basepath := ko.Spec.Basepath, Body := ko.Spec.Body,
              FailOnWarnings := ko.Spec.FailOnWarnings })).RecordAPICall "CREATE" "ImportApi"
          (respErrOf (rm.sdkapi.ImportApi
            { Basepath := ko.Spec.Basepath, Body := ko.Spec.Body,
              FailOnWarnings := ko.Spec.FailOnWarnings })) := by
  simp only [importApi, importApiInput_eq]
  generalize rm.sdkapi.ImportApi _ = out
  cases out <;> simp

/-- C3: for a resource whose spec has `Body` set and nothing else set outside
`Basepath`, `FailOnWarnings` and `Tags`, import validation raises no error and
`customCreateApi` is `importApi`: it returns, having issued exactly one
backend call, an `ImportApi` whose request carries the spec's `Body`,
`Basepath` and `FailOnWarnings`. -/
theorem customCreateApi_selects_import (rm : resourceManager) (api : API) (w : World)
    (hBody : api.Spec.Body ≠ none) (hOther : otherFieldsAbsent api.Spec) :
    validateImportApiInputFields api = none
    ∧ customCreateApi rm { ko := some api } w = importApi rm { ko := some api } w
    ∧ ∃ ret, customCreateApi rm { ko := some api } w = .ret ret
        ∧ ret.world.sdkCalls = w.sdkCalls ++ [SdkCall.ImportApi
            { Basepath := api.Spec.Basepath, Body := api.Spec.Body,
              FailOnWarnings := api.Spec.FailOnWarnings }] := by
  have hv : validateImportApiInputFields api = none := by
    rw [validateImportApiInputFields_of_body api hBody, if_pos hOther]
  have hp : importFieldsPresent api = true := by simp [importFieldsPresent, hBody]
  have hc : customCreateApi rm { ko := some api } w = importApi rm { ko := some api } w := by
    simp [customCreateApi, hp, hv]
  refine ⟨hv, hc, ?_⟩
  obtain ⟨ret, hret, -, hw⟩ := importApi_world rm api w
  refine ⟨ret, by rw [hc, hret], ?_⟩
  rw [hw]; rfl

/-- Instance of C3: on the sample import-class object `customCreateApi`
issues one `ImportApi` call carrying its `Body`, `Basepath` and
`FailOnWarnings`. -/
theorem customCreateApi_selects_import_witness :
    sampleImportApi.Spec.Body ≠ none ∧ otherFieldsAbsent sampleImportApi.Spec
    ∧ ∃ ret, customCreateApi sampleManager { ko := some sampleImportApi } {} = .ret ret
        ∧ ret.world.sdkCalls = [SdkCall.ImportApi
            { Basepath := some "/v1", Body := some "<openapi>...",
              FailOnWarnings := some true }] :=
  ⟨by decide, by decide,
   (customCreateApi_selects_import sampleManager sampleImportApi {}
      (by decide) (by decide)).2.2⟩

/-- C4: for a resource whose spec has none of `Body`, `Basepath`,
`FailOnWarnings`, `customCreateApi` returns a nil resource, leaves the
resource and the world (backend calls, metrics) as they were, and its error
is non-nil exactly when `Name` or `ProtocolType` is absent; with both present
it returns (nil, nil). -/
theorem customCreateApi_create_class (rm : resourceManager) (api : API) (w : World)
    (hBody : api.Spec.Body = none) (hBasepath : api.Spec.Basepath = none)
    (hFail : api.Spec.FailOnWarnings = none) :
    (∃ e, customCreateApi rm { ko := some api } w
        = .ret { res := none, err := e, desired := { ko := some api }, world := w }
      ∧ (e ≠ none ↔ api.Spec.Name = none ∨ api.Spec.ProtocolType = none))
    ∧ (api.Spec.Name ≠ none → api.Spec.ProtocolType ≠ none →
        customCreateApi rm { ko := some api } w
          = .ret { res := none, err := none, desired := { ko := some api }, world := w }) := by
  have hp : importFieldsPresent api = false := by
    simp [importFieldsPresent, hBody, hBasepath, hFail]
  by_cases h : api.Spec.Name = none ∨ api.Spec.ProtocolType = none
  · have hv : validateCreateApiInputFields api = some (GoError.New
        "'Name' and 'ProtocolType' are required properties if 'Body' field is not present") := by
      simp [validateCreateApiInputFields, h]
    refine ⟨⟨_, by simp [customCreateApi, hp, hv]; rfl, by simp [h]⟩, ?_⟩
    intro hn hpt
    rcases h with h | h
    · exact absurd h hn
    · exact absurd h hpt
  · have hv : validateCreateApiInputFields api = none := by
      simp [validateCreateApiInputFields, h]
    refine ⟨⟨none, by simp [customCreateApi, hp, hv], by simp [h]⟩, ?_⟩
    intro _ _
    simp [customCreateApi, hp, hv]

/-- Instance of C4: the spec with name "a" and protocol type "HTTP" makes
`customCreateApi` return (nil, nil) without touching the world. -/
theorem customCreateApi_create_class_witness :
    customCreateApi sampleManager
        { ko := some { Spec := { Name := some "a", ProtocolType := some "HTTP" } } } {}
      = .ret { res := none, err := none,
               desired := { ko := some { Spec := { Name := some "a",
                                                   ProtocolType := some "HTTP" } } },
               world := {} } :=
  (customCreateApi_create_class sampleManager
      { Spec := { Name := some "a", ProtocolType := some "HTTP" } } {} rfl rfl rfl).2
    (by simp) (by simp)

/-- C5: when the validation step of `customCreateApi` or `customUpdateApi`
returns an error (import or create validation for the former, reimport or
update validation for the latter, chosen by `importFieldsPresent`), the
operation returns a nil resource and that error, and the world is as before:
no backend verb is invoked and no call metric is recorded. -/
theorem validation_failure_short_circuits (rm : resourceManager) (api : API)
    (latest : resource) (w : World) (e : GoError) :
    (importFieldsPresent api = true → validateImportApiInputFields api = some e →
        customCreateApi rm { ko := some api } w
          = .ret { res := none, err := some e, desired := { ko := some api }, world := w })
    ∧ (importFieldsPresent api = false → validateCreateApiInputFields api = some e →
        customCreateApi rm { ko := some api } w
          = .ret { res := none, err := some e, desired := { ko := some api }, world := w })
    ∧ (importFieldsPresent api = true → validateReimportApiInputFields api = some e →
        customUpdateApi rm { ko := some api } latest w
          = .ret { res := none, err := some e, desired := { ko := some api }, world := w })
    ∧ (importFieldsPresent api = false → validateUpdateApiInputFields api = some e →
        customUpdateApi rm { ko := some api } latest w
          = .ret { res := none, err := some e, desired := { ko := some api }, world := w }) := by
  refine ⟨?_, ?_, ?_, ?_⟩ <;> intro hp hv
  · simp [customCreateApi, hp, hv]
  · simp [customCreateApi, hp, hv]
  · simp [customUpdateApi, hp, hv]
  · simp [customUpdateApi, hp, hv]

/-- Instance of C5: a spec with only `Basepath` fails import and reimport
validation, the empty spec fails create and update validation, and in all
four cases the operation returns a nil resource with the validation error and
an unchanged world. -/
theorem validation_failure_short_circuits_witness :
    customCreateApi sampleManager { ko := some { Spec := { Basepath := some "/v1" } } } {}
      = .ret { res := none,
               err := some (GoError.New
                 "'Basepath' field(s) can only be used with 'Body' field for import-api operation"),
               desired := { ko := some { Spec := { Basepath := some "/v1" } } }, world := {} }
    ∧ customCreateApi sampleManager { ko := some {} } {}
      = .ret { res := none,
               err := some (GoError.New
                 "'Name' and 'ProtocolType' are required properties if 'Body' field is not present"),
               desired := { ko := some {} }, world := {} }
    ∧ customUpdateApi sampleManager { ko := some { Spec := { Basepath := some "/v1" } } }
        { ko := none } {}
      = .ret { res := none,
               err := some (GoError.New
                 "'Basepath' field(s) can only be used with 'Body' field for import-api operation"),
               desired := { ko := some { Spec := { Basepath := some "/v1" } } }, world := {} }
    ∧ customUpdateApi sampleManager { ko := some {} } { ko := none } {}
      = .ret { res := none,
               err := some (GoError.New
                 "'Name' and 'ProtocolType' are required properties if 'Body' field is not present"),
               desired := { ko := some {} }, world := {} } :=
  ⟨(validation_failure_short_circuits sampleManager { Spec := { Basepath := some "/v1" } }
      { ko := none } {} _).1 (by decide) (by decide),
   (validation_failure_short_circuits sampleManager {} { ko := none } {} _).2.1
      (by decide) (by decide),
   (validation_failure_short_circuits sampleManager { Spec := { Basepath := some "/v1" } }
      { ko := none } {} _).2.2.1 (by decide) (by decide),
   (validation_failure_short_circuits sampleManager {} { ko := none } {} _).2.2.2
      (by decide) (by decide)⟩

/-- A spec that passes import validation has `Body` present. -/
theorem body_present_of_validateImportApiInputFields {api : API}
    (h : validateImportApiInputFields api = none) : api.Spec.Body ≠ none := by
  intro hb
  simp [validateImportApiInputFields, hb] at h

/-- Import validation can only fail with one of four messages. -/
theorem validateImportApiInputFields_messages (api : API) (e : GoError)
    (h : validateImportApiInputFields api = some e) :
    e = GoError.New
        " field(s) can only be used with 'Body' field for import-api operation"
    ∨ e = GoError.New
        "'FailOnWarnings' field(s) can only be used with 'Body' field for import-api operation"
    ∨ e = GoError.New
        "'Basepath' field(s) can only be used with 'Body' field for import-api operation"
    ∨ e = GoError.New ("'FailOnWarnings' and 'Basepath'"
          ++ " field(s) can only be used with 'Body' field for import-api operation")
    ∨ e = GoError.New
        "only 'FailOnWarnings' and 'Basepath' fields can be used with 'Body' field" := by
  by_cases hb : api.Spec.Body = none
  · by_cases hF : api.Spec.FailOnWarnings = none <;> by_cases hB : api.Spec.Basepath = none <;>
      simp [validateImportApiInputFields, hb, hF, hB] at h <;> simp [← h]
  · by_cases hc : cmpEqualAPISpec
        { api.Spec with Body := none, FailOnWarnings := none, Basepath := none, Tags := none } {}
        = true
    · simp [validateImportApiInputFields, hb, hc] at h
    · simp [validateImportApiInputFields, hb, hc] at h
      simp [← h]

/-- What `reimportApi` does once the status holds an `APIID`: one
`ReimportApi` call with the request of `reimportApiInput`, one metric for it,
the backend's error as the error. -/
theorem reimportApi_world (rm : resourceManager) (ko : API) (w : World)
    (hid : ko.Status.APIID ≠ none) :
    ∃ ret, reimportApi rm { ko := some ko } w = .ret ret
      ∧ ret.desired = { ko := some ko }
      ∧ ret.err = respErrOf (rm.sdkapi.ReimportApi
            { ApiId := ko.Status.APIID, Basepath := ko.Spec.Basepath, Body := ko.Spec.Body,
              FailOnWarnings := ko.Spec.FailOnWarnings })
      ∧ ret.world = (w.invoke (SdkCall.ReimportApi
            { ApiId := ko.Status.APIID, Basepath := ko.Spec.Basepath, Body := ko.Spec.Body,
              FailOnWarnings := ko.Spec.FailOnWarnings })).RecordAPICall "UPDATE" "ReimportApi"
          (respErrOf (rm.sdkapi.ReimportApi
            { ApiId := ko.Status.APIID, Basepath := ko.Spec.Basepath, Body := ko.Spec.Body,
              FailOnWarnings := ko.Spec.FailOnWarnings })) := by
  simp only [reimportApi, reimportApiInput_eq ko hid]
  generalize rm.sdkapi.ReimportApi _ = out
  cases out <;> simp [respErrOf]

/-- What `updateApi` does: one `UpdateApi` call with the request of
`updateApiInput`, one metric for it, the backend's error as the error. -/
theorem updateApi_world (rm : resourceManager) (ko : API) (w : World) :
    ∃ ret input, updateApi rm { ko := some ko } w = .ret ret
      ∧ updateApiInput ko = .ok input
      ∧ ret.desired = { ko := some ko }
      ∧ ret.err = respErrOf (rm.sdkapi.UpdateApi input)
      ∧ ret.world = (w.invoke (SdkCall.UpdateApi input)).RecordAPICall "UPDATE" "UpdateApi"
          (respErrOf (rm.sdkapi.UpdateApi input)) := by
  obtain ⟨input, hin⟩ := updateApiInput_ok ko
  simp only [updateApi, hin]
  generalize hout : rm.sdkapi.UpdateApi input = out
  cases out <;> simp [respErrOf, hout]

/-- C6: for a desired resource that passes import-class validation but whose
status has no `APIID`, `customUpdateApi` returns a nil resource and the error
"'APIID' is required input parameter for 'ReimportApi' operation", with the
world unchanged (no `ReimportApi`, no `ImportApi`, no other verb, no metric);
that error is none of the errors the import and create validations return. -/
theorem customUpdateApi_reimport_requires_APIID (rm : resourceManager) (api : API)
    (latest : resource) (w : World)
    (hv : validateReimportApiInputFields api = none) (hid : api.Status.APIID = none) :
    customUpdateApi rm { ko := some api } latest w
        = .ret { res := none,
                 err := some (GoError.New
                   "'APIID' is required input parameter for 'ReimportApi' operation"),
                 desired := { ko := some api }, world := w }
    ∧ (∀ other : API, validateImportApiInputFields other ≠ some (GoError.New
          "'APIID' is required input parameter for 'ReimportApi' operation"))
    ∧ (∀ other : API, validateCreateApiInputFields other ≠ some (GoError.New
          "'APIID' is required input parameter for 'ReimportApi' operation")) := by
  have hb : api.Spec.Body ≠ none := body_present_of_validateImportApiInputFields hv
  have hp : importFieldsPresent api = true := by simp [importFieldsPresent, hb]
  refine ⟨?_, ?_, ?_⟩
  · simp [customUpdateApi, hp, hv, reimportApi, reimportApiInput, hid]
  · intro other h
    rcases validateImportApiInputFields_messages other _ h with h | h | h | h | h <;>
      exact absurd h (by decide)
  · intro other h
    by_cases hn : other.Spec.Name = none ∨ other.Spec.ProtocolType = none
    · simp [validateCreateApiInputFields, hn] at h
    · simp [validateCreateApiInputFields, hn] at h

/-- Instance of C6: the sample import-class object, which has no status yet,
makes `customUpdateApi` fail with the `APIID` error and no backend call. -/
theorem customUpdateApi_reimport_requires_APIID_witness :
    validateReimportApiInputFields sampleImportApi = none
    ∧ sampleImportApi.Status.APIID = none
    ∧ customUpdateApi sampleManager { ko := some sampleImportApi } { ko := none } {}
        = .ret { res := none,
                 err := some (GoError.New
                   "'APIID' is required input parameter for 'ReimportApi' operation"),
                 desired := { ko := some sampleImportApi }, world := {} } :=
  ⟨by decide, rfl,
   (customUpdateApi_reimport_requires_APIID sampleManager sampleImportApi { ko := none } {}
      (by decide) rfl).1⟩

/-- C7: for a desired resource with an import-indicating field set, a spec
that passes import-class validation and a status `APIID`, `customUpdateApi`
returns, having issued exactly one backend call, a `ReimportApi` whose request
has the status `APIID` and the spec's `Body`, `Basepath` and
`FailOnWarnings`, and its error is the backend's answer, not a validation
error; with no import-indicating field set and `Name` and `ProtocolType`
present it issues exactly one `UpdateApi` call, with the request of
`updateApiInput`. -/
theorem customUpdateApi_selects (rm : resourceManager) (api : API) (latest : resource)
    (w : World) :
    (importFieldsPresent api = true → validateReimportApiInputFields api = none →
      api.Status.APIID ≠ none →
        ∃ ret, customUpdateApi rm { ko := some api } latest w = .ret ret
          ∧ ret.world.sdkCalls = w.sdkCalls ++ [SdkCall.ReimportApi
              { ApiId := api.Status.APIID, Basepath := api.Spec.Basepath,
                Body := api.Spec.Body, FailOnWarnings := api.Spec.FailOnWarnings }]
          ∧ ret.err = respErrOf (rm.sdkapi.ReimportApi
              { ApiId := api.Status.APIID, Basepath := api.Spec.Basepath,
                Body := api.Spec.Body, FailOnWarnings := api.Spec.FailOnWarnings }))
    ∧ (importFieldsPresent api = false → api.Spec.Name ≠ none →
      api.Spec.ProtocolType ≠ none →
        ∃ ret input, customUpdateApi rm { ko := some api } latest w = .ret ret
          ∧ updateApiInput api = .ok input
          ∧ ret.world.sdkCalls = w.sdkCalls ++ [SdkCall.UpdateApi input]
          ∧ ret.err = respErrOf (rm.sdkapi.UpdateApi input)) := by
  constructor
  · intro hp hv hid
    obtain ⟨ret, hret, -, herr, hw⟩ := reimportApi_world rm api w hid
    refine ⟨ret, ?_, ?_, herr⟩
    · simp [customUpdateApi, hp, hv, hret]
    · rw [hw]; rfl
  · intro hp hn hpt
    have hv : validateUpdateApiInputFields api = none := by
      simp [validateUpdateApiInputFields, validateCreateApiInputFields, hn, hpt]
    obtain ⟨ret, input, hret, hin, -, herr, hw⟩ := updateApi_world rm api w
    refine ⟨ret, input, ?_, hin, ?_, herr⟩
    · simp [customUpdateApi, hp, hv, hret]
    · rw [hw]; rfl

/-- Instance of C7: on the sample object with an identifier `customUpdateApi`
issues one `ReimportApi` call for that identifier and returns no error; on the
sample create-class object it issues one `UpdateApi` call. -/
theorem customUpdateApi_selects_witness :
    (∃ ret, customUpdateApi sampleManager { ko := some sampleReimportApi } { ko := none } {}
        = .ret ret
      ∧ ret.world.sdkCalls = [SdkCall.ReimportApi
          { ApiId := some "a1b2c3", Basepath := some "/v1", Body := some "<openapi>...",
            FailOnWarnings := some true }]
      ∧ ret.err = none)
    ∧ (∃ ret input, customUpdateApi sampleManager { ko := some sampleCreateApi } { ko := none } {}
        = .ret ret
      ∧ updateApiInput sampleCreateApi = .ok input
      ∧ ret.world.sdkCalls = [SdkCall.UpdateApi input]
      ∧ ret.err = none) :=
  ⟨(customUpdateApi_selects sampleManager sampleReimportApi { ko := none } {}).1
      (by decide) (by decide) (by decide),
   (customUpdateApi_selects sampleManager sampleCreateApi { ko := none } {}).2
      (by decide) (by decide) (by decide)⟩

/-! ## Backend operation executor -/

/-- Appending the elements one by one rebuilds the list, in order. -/
theorem foldl_append_singleton {α : Type} (l acc : List α) :
    l.foldl (fun f fiter => f ++ [fiter]) acc = acc ++ l := by
  induction l generalizing acc with
  | nil => simp
  | cons x xs ih => simp [ih]

/-- The merge block sets each of the six status fields to the response's
value when that is non-nil and keeps the existing value otherwise. -/
theorem mergeApiOutput_merged (status : APIStatus) (resp : ApiOutput) :
    statusMergedFrom status resp (mergeApiOutput status resp)
      ∧ (mergeApiOutput status resp).Conditions = status.Conditions := by
  obtain ⟨e, g, i, c, ii, ws⟩ := resp
  cases e <;> cases g <;> cases i <;> cases c <;> cases ii <;> cases ws <;>
    simp [statusMergedFrom, mergedField, mergeApiOutput, foldl_append_singleton]

/-- A successful operation result built from the merge block is a merged
success, when `setStatusDefaults` keeps the merged fields. -/
theorem mergedSuccess_of_merge (rm : resourceManager) (ko : API) (resp : ApiOutput) (w : World)
    (hframe : keepsMergedFields rm.setStatusDefaults) :
    mergedSuccess ko resp
      { res := some { ko := some (rm.setStatusDefaults
                        { ko with Status := mergeApiOutput ko.Status resp }) },
        err := none, desired := { ko := some ko }, world := w } := by
  obtain ⟨hs, h1, h2, h3, h4, h5, h6⟩ :=
    hframe { ko with Status := mergeApiOutput ko.Status resp }
  refine ⟨rfl, rfl, _, rfl, hs, ?_⟩
  have hm := (mergeApiOutput_merged ko.Status resp).1
  unfold statusMergedFrom at hm ⊢
  rw [h1, h2, h3, h4, h5, h6]
  exact hm

/-- The result of `importApi` when the backend answers with a response. -/
theorem importApi_ok (rm : resourceManager) (ko : API) (w : World) (input : ImportApiInput)
    (resp : ApiOutput) (hin : importApiInput ko = .ok input)
    (hout : rm.sdkapi.ImportApi input = .ok resp) :
    importApi rm { ko := some ko } w
      = .ret { res := some { ko := some (rm.setStatusDefaults
                          { ko with Status := mergeApiOutput ko.Status resp }) },
               err := none, desired := { ko := some ko },
               world := (w.invoke (SdkCall.ImportApi input)).RecordAPICall "CREATE" "ImportApi" none } := by
  simp only [importApi, hin, hout, respErrOf]

/-- The result of `importApi` when the backend answers with an error. -/
theorem importApi_error (rm : resourceManager) (ko : API) (w : World) (input : ImportApiInput)
    (e : GoError) (hin : importApiInput ko = .ok input)
    (hout : rm.sdkapi.ImportApi input = .error e) :
    importApi rm { ko := some ko } w
      = .ret { res := none, err := some e, desired := { ko := some ko },
               world := (w.invoke (SdkCall.ImportApi input)).RecordAPICall "CREATE" "ImportApi" (some e) } := by
  simp only [importApi, hin, hout, respErrOf]

/-- The result of `reimportApi` when the backend answers with a response. -/
theorem reimportApi_ok (rm : resourceManager) (ko : API) (w : World) (input : ReimportApiInput)
    (resp : ApiOutput) (hin : reimportApiInput ko = .ok input)
    (hout : rm.sdkapi.ReimportApi input = .ok resp) :
    reimportApi rm { ko := some ko } w
      = .ret { res := some { ko := some (rm.setStatusDefaults
                          { ko with Status := mergeApiOutput ko.Status resp }) },
               err := none, desired := { ko := some ko },
               world := (w.invoke (SdkCall.ReimportApi input)).RecordAPICall "UPDATE" "ReimportApi" none } := by
  simp only [reimportApi, hin, hout, respErrOf]

/-- The result of `reimportApi` when the backend answers with an error. -/
theorem reimportApi_error (rm : resourceManager) (ko : API) (w : World) (input : ReimportApiInput)
    (e : GoError) (hin : reimportApiInput ko = .ok input)
    (hout : rm.sdkapi.ReimportApi input = .error e) :
    reimportApi rm { ko := some ko } w
      = .ret { res := none, err := some e, desired := { ko := some ko },
               world := (w.invoke (SdkCall.ReimportApi input)).RecordAPICall "UPDATE" "ReimportApi" (some e) } := by
  simp only [reimportApi, hin, hout, respErrOf]

/-- The result of `updateApi` when the backend answers with a response. -/
theorem updateApi_ok (rm : resourceManager) (ko : API) (w : World) (input : UpdateApiInput)
    (resp : ApiOutput) (hin : updateApiInput ko = .ok input)
    (hout : rm.sdkapi.UpdateApi input = .ok resp) :
    updateApi rm { ko := some ko } w
      = .ret { res := some { ko := some (rm.setStatusDefaults
                          { ko with Status := mergeApiOutput ko.Status resp }) },
               err := none, desired := { ko := some ko },
               world := (w.invoke (SdkCall.UpdateApi input)).RecordAPICall "UPDATE" "UpdateApi" none } := by
  simp only [updateApi, hin, hout, respErrOf]

/-- The result of `updateApi` when the backend answers with an error. -/
theorem updateApi_error (rm : resourceManager) (ko : API) (w : World) (input : UpdateApiInput)
    (e : GoError) (hin : updateApiInput ko = .ok input)
    (hout : rm.sdkapi.UpdateApi input = .error e) :
    updateApi rm { ko := some ko } w
      = .ret { res := none, err := some e, desired := { ko := some ko },
               world := (w.invoke (SdkCall.UpdateApi input)).RecordAPICall "UPDATE" "UpdateApi" (some e) } := by
  simp only [updateApi, hin, hout, respErrOf]

/-- C8: when the backend call of `importApi`, `reimportApi` or `updateApi`
succeeds with response `resp`, the operation returns no error and a resource
built on a copy of the desired object: the desired object is as before, the
returned spec is the desired spec, and each of `APIEndpoint`,
`APIGatewayManaged`, `APIID`, `CreatedDate`, `ImportInfo`, `Warnings` is the
response's value when that is non-nil and the desired object's status value
when it is nil. The method `setStatusDefaults`, which runs last, is taken to
leave the spec and these six fields alone. -/
theorem merge_on_success (rm : resourceManager) (ko : API) (resp : ApiOutput) (w : World)
    (hframe : keepsMergedFields rm.setStatusDefaults) :
    (∀ input, importApiInput ko = .ok input → rm.sdkapi.ImportApi input = .ok resp →
        ∃ ret, importApi rm { ko := some ko } w = .ret ret ∧ mergedSuccess ko resp ret)
    ∧ (∀ input, reimportApiInput ko = .ok input → rm.sdkapi.ReimportApi input = .ok resp →
        ∃ ret, reimportApi rm { ko := some ko } w = .ret ret ∧ mergedSuccess ko resp ret)
    ∧ (∀ input, updateApiInput ko = .ok input → rm.sdkapi.UpdateApi input = .ok resp →
        ∃ ret, updateApi rm { ko := some ko } w = .ret ret ∧ mergedSuccess ko resp ret) := by
  refine ⟨?_, ?_, ?_⟩ <;> intro input hin hout
  · exact ⟨_, importApi_ok rm ko w input resp hin hout, mergedSuccess_of_merge rm ko resp _ hframe⟩
  · exact ⟨_, reimportApi_ok rm ko w input resp hin hout,
      mergedSuccess_of_merge rm ko resp _ hframe⟩
  · exact ⟨_, updateApi_ok rm ko w input resp hin hout, mergedSuccess_of_merge rm ko resp _ hframe⟩

/-- The sample `setStatusDefaults` only touches the condition list. -/
theorem sampleSetStatusDefaults_keeps : keepsMergedFields sampleSetStatusDefaults := by
  intro ko
  unfold sampleSetStatusDefaults
  split <;> simp

/-- Instance of C8: reimporting the sample object, whose status holds an
identifier and a warning, with a response that reports an identifier and an
endpoint but no warnings, returns a copy with the endpoint filled in and the
old warning kept. -/
theorem merge_on_success_witness :
    keepsMergedFields sampleManager.setStatusDefaults
    ∧ (∃ ret, reimportApi sampleManager { ko := some sampleReimportApi } {} = .ret ret
        ∧ mergedSuccess sampleReimportApi sampleOutput ret)
    ∧ reimportApi sampleManager { ko := some sampleReimportApi } {}
        = .ret { res := some { ko := some { Spec := sampleReimportApi.Spec,
                                            Status :=
                                              { Conditions := some [],
                                                APIEndpoint := some "https://a1b2c3.example",
                                                APIID := some "a1b2c3",
                                                Warnings := some ["unused path"] } } },
                 err := none, desired := { ko := some sampleReimportApi },
                 world := { sdkCalls := [SdkCall.ReimportApi
                              { ApiId := some "a1b2c3", Basepath := some "/v1",
                                Body := some "<openapi>...", FailOnWarnings := some true }],
                            metrics := [{ opType := "UPDATE", opID := "ReimportApi",
                                          err := none }] } } :=
  ⟨sampleSetStatusDefaults_keeps,
   (merge_on_success sampleManager sampleReimportApi sampleOutput {}
      sampleSetStatusDefaults_keeps).2.1 _ rfl rfl,
   by decide⟩

/-- C9: when the backend call of `importApi`, `reimportApi` or `updateApi`
returns an error `e`, the operation returns a nil resource and `e` itself, and
the world holds one more call metric, tagged ("CREATE", "ImportApi"),
("UPDATE", "ReimportApi") or ("UPDATE", "UpdateApi") and carrying `e`; when
the call succeeds the same single metric is recorded with a nil error. -/
theorem backend_error_passthrough (rm : resourceManager) (ko : API) (w : World) :
    (∀ input e, importApiInput ko = .ok input → rm.sdkapi.ImportApi input = .error e →
        ∃ ret, importApi rm { ko := some ko } w = .ret ret
          ∧ ret.res = none ∧ ret.err = some e
          ∧ ret.world.metrics = w.metrics ++
              [{ opType := "CREATE", opID := "ImportApi", err := some e }])
    ∧ (∀ input e, reimportApiInput ko = .ok input → rm.sdkapi.ReimportApi input = .error e →
        ∃ ret, reimportApi rm { ko := some ko } w = .ret ret
          ∧ ret.res = none ∧ ret.err = some e
          ∧ ret.world.metrics = w.metrics ++
              [{ opType := "UPDATE", opID := "ReimportApi", err := some e }])
    ∧ (∀ input e, updateApiInput ko = .ok input → rm.sdkapi.UpdateApi input = .error e →
        ∃ ret, updateApi rm { ko := some ko } w = .ret ret
          ∧ ret.res = none ∧ ret.err = some e
          ∧ ret.world.metrics = w.metrics ++
              [{ opType := "UPDATE", opID := "UpdateApi", err := some e }])
    ∧ (∀ input resp, importApiInput ko = .ok input → rm.sdkapi.ImportApi input = .ok resp →
        ∃ ret, importApi rm { ko := some ko } w = .ret ret ∧ ret.err = none
          ∧ ret.world.metrics = w.metrics ++
              [{ opType := "CREATE", opID := "ImportApi", err := none }])
    ∧ (∀ input resp, reimportApiInput ko = .ok input → rm.sdkapi.ReimportApi input = .ok resp →
        ∃ ret, reimportApi rm { ko := some ko } w = .ret ret ∧ ret.err = none
          ∧ ret.world.metrics = w.metrics ++
              [{ opType := "UPDATE", opID := "ReimportApi", err := none }])
    ∧ (∀ input resp, updateApiInput ko = .ok input → rm.sdkapi.UpdateApi input = .ok resp →
        ∃ ret, updateApi rm { ko := some ko } w = .ret ret ∧ ret.err = none
          ∧ ret.world.metrics = w.metrics ++
              [{ opType := "UPDATE", opID := "UpdateApi", err := none }]) := by
  refine ⟨?_, ?_, ?_, ?_, ?_, ?_⟩
  · intro input e hin hout
    exact ⟨_, importApi_error rm ko w input e hin hout, rfl, rfl, rfl⟩
  · intro input e hin hout
    exact ⟨_, reimportApi_error rm ko w input e hin hout, rfl, rfl, rfl⟩
  · intro input e hin hout
    exact ⟨_, updateApi_error rm ko w input e hin hout, rfl, rfl, rfl⟩
  · intro input resp hin hout
    exact ⟨_, importApi_ok rm ko w input resp hin hout, rfl, rfl⟩
  · intro input resp hin hout
    exact ⟨_, reimportApi_ok rm ko w input resp hin hout, rfl, rfl⟩
  · intro input resp hin hout
    exact ⟨_, updateApi_ok rm ko w input resp hin hout, rfl, rfl⟩

/-- Instance of C9: with a backend that throttles every verb, importing,
reimporting and updating return a nil resource and the throttling error, and
record one metric carrying it. -/
theorem backend_error_passthrough_witness :
    (∃ ret, importApi failingManager { ko := some sampleImportApi } {} = .ret ret
      ∧ ret.res = none
      ∧ ret.err = some (GoError.Sdk "TooManyRequestsException" "slow down")
      ∧ ret.world.metrics =
          [{ opType := "CREATE", opID := "ImportApi",
             err := some (GoError.Sdk "TooManyRequestsException" "slow down") }])
    ∧ (∃ ret, reimportApi failingManager { ko := some sampleReimportApi } {} = .ret ret
      ∧ ret.res = none
      ∧ ret.err = some (GoError.Sdk "TooManyRequestsException" "slow down")
      ∧ ret.world.metrics =
          [{ opType := "UPDATE", opID := "ReimportApi",
             err := some (GoError.Sdk "TooManyRequestsException" "slow down") }])
    ∧ (∃ ret, updateApi failingManager { ko := some sampleCreateApi } {} = .ret ret
      ∧ ret.res = none
      ∧ ret.err = some (GoError.Sdk "TooManyRequestsException" "slow down")
      ∧ ret.world.metrics =
          [{ opType := "UPDATE", opID := "UpdateApi",
             err := some (GoError.Sdk "TooManyRequestsException" "slow down") }]) :=
  ⟨(backend_error_passthrough failingManager sampleImportApi {}).1 _ _ rfl rfl,
   (backend_error_passthrough failingManager sampleReimportApi {}).2.1 _ _ rfl rfl,
   (backend_error_passthrough failingManager sampleCreateApi {}).2.2.1 _ _ rfl rfl⟩

/-! ## Late initialization -/

/-- Every `ReadOne` that returns has asked `sdkFind` for exactly one more
backend read. -/
theorem ReadOne_reads (rm : resourceManager) (tf : TagFuncs) (res : Option resource)
    (w : World) (ret : ManagerReturn) (h : ReadOne rm tf res w = .ret ret) :
    ∃ r, res = some r ∧ ret.world.reads = w.reads ++ [r] := by
  unfold ReadOne at h
  cases res with
  | none => simp at h
  | some r =>
    refine ⟨r, rfl, ?_⟩
    cases hko : r.ko with
    | none => simp [hko] at h
    | some ko =>
      simp only [hko] at h
      split at h
      · simp at h
      · simp only [Run.ret.injEq] at h
        rw [← h]

/-- C10: the list `lateInitializeFieldNames` is empty, and for every resource
manager, every input resource and every world `LateInitialize` returns the
resource it was given with a nil error (so no requeue request), leaves that
resource as it was (so no condition is set), and leaves the world as it was:
no backend read, whereas every returning `ReadOne` adds one. -/
theorem LateInitialize_not_needed (rm : resourceManager) (tf : TagFuncs)
    (latest : Option resource) (w : World) :
    lateInitializeFieldNames.length = 0
    ∧ LateInitialize rm tf latest w
        = .ret { res := latest, err := none, arg := latest, world := w }
    ∧ (∀ res ret, ReadOne rm tf res w = .ret ret → ret.world.reads ≠ w.reads) := by
  refine ⟨rfl, ?_, ?_⟩
  · unfold LateInitialize
    rw [if_pos (by rfl)]
  · intro res ret h
    obtain ⟨r, -, hr⟩ := ReadOne_reads rm tf res w ret h
    rw [hr]
    simp

/-! ## Condition classifier -/

/-- The loop of `onError` finds a terminal condition exactly when the
resource carries one. -/
theorem any_terminal_iff (ko : API) :
    (ko.Status.Conditions.getD []).any
        (fun condition =>
          condition.Type_ = ConditionTypeTerminal ∧ condition.Status = ConditionTrue) = true
      ↔ carriesTerminal (some { ko := some ko }) := by
  unfold carriesTerminal
  constructor
  · intro h
    obtain ⟨c, hc, hp⟩ := List.any_eq_true.mp h
    exact ⟨_, ko, rfl, rfl, c, hc, by simpa using hp⟩
  · rintro ⟨r, ko1, hr, hko, c, hc, hp⟩
    cases hr
    cases hko
    exact List.any_eq_true.mpr ⟨c, hc, by simpa using hp⟩

/-- The three ways `onError` returns: (nil, err) for a nil resource; the
resource `r` and `err` when `updateConditions` reports no update; and, when
`updateConditions` reports an update and hands over `r1`, the resource `r1`
with the sentinel `Terminal` if `r1` carries `ACK.Terminal` = `True` and with
`err` otherwise. -/
theorem onError_cases (rm : resourceManager) (r : resource) (err : Option GoError) :
    onError rm none err = .ret (none, err)
    ∧ ((rm.updateConditions r false err).2 = false →
        onError rm (some r) err = .ret (some r, err))
    ∧ (∀ ko1 : API, rm.updateConditions r false err = (some { ko := some ko1 }, true) →
        (carriesTerminal (some { ko := some ko1 }) →
          onError rm (some r) err = .ret (some { ko := some ko1 }, some GoError.Terminal))
        ∧ (¬ carriesTerminal (some { ko := some ko1 }) →
          onError rm (some r) err = .ret (some { ko := some ko1 }, err))) := by
  refine ⟨rfl, ?_, ?_⟩
  · intro h
    cases hu : rm.updateConditions r false err with
    | mk r1 updated =>
      rw [hu] at h
      simp only at h
      subst h
      simp only [onError, hu, Bool.not_false, if_true]
  · intro ko1 hu
    have ht := any_terminal_iff ko1
    constructor
    · intro hc
      simp only [onError, hu, Bool.not_true, Bool.false_eq_true, if_false]
      rw [if_pos (ht.mpr hc)]
    · intro hc
      simp only [onError, hu, Bool.not_true, Bool.false_eq_true, if_false]
      rw [if_neg (fun hb => hc (ht.mp hb))]

/-- C11: for a nil resource `onError` returns (nil, err); for a non-nil
resource `r` and an error `err` it returns a resource together with the
sentinel `Terminal` whenever that resource carries a condition of type
`ACK.Terminal` with status `True`, and together with `err` itself otherwise.
The method `updateConditions` is taken to hand over the updated resource when
it reports an update, and to report no update only for a resource that does
not carry `ACK.Terminal` = `True`. -/
theorem onError_returns_terminal (rm : resourceManager) (r : resource) (err : Option GoError)
    (hrm : reportsTerminal rm r err) :
    onError rm none err = .ret (none, err)
    ∧ ∃ (res : resource) (e : Option GoError), onError rm (some r) err = .ret (some res, e)
        ∧ (carriesTerminal (some res) → e = some GoError.Terminal)
        ∧ (¬ carriesTerminal (some res) → e = err) := by
  obtain ⟨hnil, hnot, hupd⟩ := onError_cases rm r err
  refine ⟨hnil, ?_⟩
  cases hb : (rm.updateConditions r false err).2 with
  | false =>
    exact ⟨r, err, hnot hb, fun hc => absurd hc (hrm.2 hb), fun _ => rfl⟩
  | true =>
    obtain ⟨ko1, hk⟩ := hrm.1 hb
    have hu : rm.updateConditions r false err = (some { ko := some ko1 }, true) := by
      rw [← hk, ← hb]
    by_cases hc : carriesTerminal (some { ko := some ko1 })
    · exact ⟨_, _, (hupd ko1 hu).1 hc, fun _ => rfl, fun hn => absurd hc hn⟩
    · exact ⟨_, _, (hupd ko1 hu).2 hc, fun h => absurd h hc, fun _ => rfl⟩

/-- The sample `updateConditions` reports an update for every resource that
has an object, and a resource without an object carries no condition. -/
theorem sampleManager_reportsTerminal (r : resource) (err : Option GoError) :
    reportsTerminal sampleManager r err := by
  obtain ⟨ko⟩ := r
  cases ko with
  | none =>
    refine ⟨fun h => absurd h (by
      simp [sampleManager, sampleUpdateConditions, setCondition]), fun _ => ?_⟩
    rintro ⟨r, ko, hr, hko, -⟩
    cases hr
    cases hko
  | some ko =>
    exact ⟨fun _ => ⟨_, rfl⟩, fun h => absurd h (by
      simp [sampleManager, sampleUpdateConditions, setCondition])⟩

/-- Instance of C11: for the sample resource that carries `ACK.Terminal` =
`True`, `onError` hands back a resource that still carries it, together with
the sentinel `Terminal`; for the sample resource without conditions it hands
back a resource marked as not synced, together with the backend error itself. -/
theorem onError_returns_terminal_witness :
    reportsTerminal sampleManager terminalResource (some badRequest)
    ∧ (∃ (res : resource) (e : Option GoError),
        onError sampleManager (some terminalResource) (some badRequest) = .ret (some res, e)
        ∧ (carriesTerminal (some res) → e = some GoError.Terminal)
        ∧ (¬ carriesTerminal (some res) → e = some badRequest))
    ∧ onError sampleManager (some terminalResource) (some badRequest)
        = .ret (some { ko := some { sampleCreateApi with
                         Status := { sampleCreateApi.Status with
                                     Conditions := some [{ Type_ := "ACK.Terminal",
                                                           Status := "True" },
                                                         { Type_ := "ACK.ResourceSynced",
                                                           Status := "False" }] } } },
                some GoError.Terminal)
    ∧ onError sampleManager (some { ko := some sampleCreateApi }) (some badRequest)
        = .ret (some { ko := some { sampleCreateApi with
                         Status := { sampleCreateApi.Status with
                                     Conditions := some [{ Type_ := "ACK.ResourceSynced",
                                                           Status := "False" }] } } },
                some badRequest) :=
  ⟨sampleManager_reportsTerminal _ _,
   (onError_returns_terminal sampleManager terminalResource (some badRequest)
      (sampleManager_reportsTerminal _ _)).2,
   by decide, by decide⟩

/-! ## Tag reconciler -/

/-- A key has a value in an association list exactly when it is one of its
keys. -/
theorem lookup_isSome_iff_mem_keys {β : Type} (l : List (String × β)) (k : String) :
    (l.lookup k).isSome ↔ k ∈ l.map Prod.fst := by
  rw [List.lookup_isSome_iff]
  simp only [beq_iff_eq, List.mem_map]
  constructor
  · rintro ⟨p, hp, rfl⟩
    exact ⟨p, hp, rfl⟩
  · rintro ⟨p, hp, rfl⟩
    exact ⟨p, hp, rfl⟩

/-- In an association list with distinct keys every entry is the value of its
key. -/
theorem lookup_of_mem_of_nodup {β : Type} (l : List (String × β))
    (hl : (l.map Prod.fst).Nodup) (k : String) (v : β) (h : (k, v) ∈ l) :
    l.lookup k = some v := by
  induction l with
  | nil => simp at h
  | cons p l ih =>
    obtain ⟨k1, v1⟩ := p
    simp only [List.map_cons, List.nodup_cons, List.mem_map, not_exists, not_and] at hl
    rcases List.mem_cons.mp h with h1 | h2
    · cases h1
      simp
    · have hne : k ≠ k1 := by
        intro hk
        exact hl.1 (k, v) h2 hk
      rw [List.lookup_cons]
      have hb : (k == k1) = false := by simpa using hne
      rw [hb]
      exact ih hl.2 h2

/-- Looking a key up after rewriting the values is rewriting the value looked
up. -/
theorem lookup_map_snd {β γ : Type} (f : β → γ) (l : List (String × β)) (k : String) :
    (l.map (fun kv => (kv.1, f kv.2))).lookup k = (l.lookup k).map f := by
  induction l with
  | nil => rfl
  | cons p l ih =>
    obtain ⟨k1, v1⟩ := p
    simp only [List.map_cons, List.lookup_cons]
    cases k == k1 <;> simp [ih]

/-- Rewriting the values keeps the keys. -/
theorem keys_map_snd {β γ : Type} (f : β → γ) (l : List (String × β)) :
    (l.map (fun kv => (kv.1, f kv.2))).map Prod.fst = l.map Prod.fst := by
  simp [List.map_map, Function.comp_def]

/-- One more tag of `b`, then the rest. -/
theorem insertMissing_cons (a : Tags) (kv : String × String) (b : Tags) :
    insertMissing a (kv :: b)
      = insertMissing (if (a.lookup kv.1).isSome then a else a ++ [kv]) b := rfl

/-- The tags of `a` stay where they are: `insertMissing` only appends. -/
theorem insertMissing_prefix (a b : Tags) : ∃ n, insertMissing a b = a ++ n := by
  induction b generalizing a with
  | nil => exact ⟨[], by simp [insertMissing]⟩
  | cons kv b ih =>
    rw [insertMissing_cons]
    split
    · exact ih a
    · obtain ⟨n, hn⟩ := ih (a ++ [kv])
      exact ⟨kv :: n, by rw [hn]; simp⟩

/-- The value of a key after `insertMissing` is the one in `a`, or else the
one in `b`. -/
theorem lookup_insertMissing (a b : Tags) (k : String) :
    (insertMissing a b).lookup k = (a.lookup k).or (b.lookup k) := by
  induction b generalizing a with
  | nil => simp [insertMissing]
  | cons kv b ih =>
    obtain ⟨k1, v1⟩ := kv
    rw [insertMissing_cons, ih, List.lookup_cons]
    by_cases hk : k = k1
    · subst hk
      simp only [beq_self_eq_true]
      split
      · rename_i h
        obtain ⟨v, hv⟩ := Option.isSome_iff_exists.mp h
        simp [hv]
      · rename_i h
        have hn : a.lookup k = none := Option.not_isSome_iff_eq_none.mp h
        simp [List.lookup_append, hn, List.lookup_cons]
    · have hb : (k == k1) = false := by simpa using hk
      rw [hb]
      split
      · rfl
      · simp [List.lookup_append, List.lookup_cons, hb]

/-- Distinct keys stay distinct under `insertMissing`. -/
theorem insertMissing_nodup (a b : Tags) (ha : (a.map Prod.fst).Nodup) :
    ((insertMissing a b).map Prod.fst).Nodup := by
  induction b generalizing a with
  | nil => simpa [insertMissing] using ha
  | cons kv b ih =>
    rw [insertMissing_cons]
    split
    · exact ih a ha
    · rename_i h
      apply ih
      have hn : kv.1 ∉ a.map Prod.fst := by
        intro hm
        exact h ((lookup_isSome_iff_mem_keys a kv.1).mpr hm)
      rw [List.map_append, List.nodup_append]
      refine ⟨ha, by simp, ?_⟩
      intro x hx hx1
      simp only [List.map_cons, List.map_nil, List.mem_singleton] at hx1
      subst hx1
      exact hn hx

/-- When `a` already holds every key of `b`, `insertMissing` adds nothing. -/
theorem insertMissing_of_covered (a b : Tags)
    (h : ∀ kv ∈ b, (a.lookup kv.1).isSome) : insertMissing a b = a := by
  induction b generalizing a with
  | nil => rfl
  | cons kv b ih =>
    rw [insertMissing_cons, if_pos (h kv (List.mem_cons_self _ _))]
    exact ih a (fun p hp => h p (List.mem_cons_of_mem _ hp))

/-- Adding the missing tags a second time changes nothing. -/
theorem insertMissing_idem (a b : Tags) :
    insertMissing (insertMissing a b) b = insertMissing a b := by
  apply insertMissing_of_covered
  intro kv hkv
  rw [lookup_insertMissing]
  have hb : (b.lookup kv.1).isSome := by
    rw [lookup_isSome_iff_mem_keys]
    exact List.mem_map.mpr ⟨kv, hkv, rfl⟩
  cases a.lookup kv.1 <;> simp [hb]

/-- The keys of the key sequence come back first, each with its value. -/
theorem filterMap_lookup_keys (t q : Tags) (h : ∀ kv ∈ q, t.lookup kv.1 = some kv.2) :
    (q.map Prod.fst).filterMap (fun k => (t.lookup k).map (fun v => (k, some v)))
      = q.map (fun kv => (kv.1, some kv.2)) := by
  induction q with
  | nil => rfl
  | cons p q ih =>
    simp only [List.map_cons, List.filterMap_cons, h p (List.mem_cons_self _ _), Option.map_some']
    rw [ih (fun kv hkv => h kv (List.mem_cons_of_mem _ hkv))]

/-- On a value mapping `p ++ n` with distinct keys, and the key sequence of
`p`, `fromACKTags` gives back `p ++ n` in that order. -/
theorem fromACKTags_append (p n : Tags) (h : ((p ++ n).map Prod.fst).Nodup) :
    fromACKTags (p ++ n) (p.map Prod.fst)
      = some ((p ++ n).map (fun kv => (kv.1, some kv.2))) := by
  have hA : ∀ kv ∈ p, (p ++ n).lookup kv.1 = some kv.2 := by
    intro kv hkv
    exact lookup_of_mem_of_nodup (p ++ n) h kv.1 kv.2 (List.mem_append_left _ hkv)
  have hp : p.filter (fun kv => decide (kv.1 ∉ p.map Prod.fst)) = [] := by
    rw [List.filter_eq_nil_iff]
    intro kv hkv
    simp only [decide_not, Bool.not_eq_true', decide_eq_false_iff_not, not_not]
    exact List.mem_map.mpr ⟨kv, hkv, rfl⟩
  have hn : n.filter (fun kv => decide (kv.1 ∉ p.map Prod.fst)) = n := by
    rw [List.filter_eq_self]
    intro kv hkv
    rw [List.map_append, List.nodup_append] at h
    simp only [decide_eq_true_eq]
    intro hm
    exact h.2.2 hm (List.mem_map.mpr ⟨kv, hkv, rfl⟩)
  unfold fromACKTags
  rw [filterMap_lookup_keys (p ++ n) p hA, List.filter_append, hp, hn, List.nil_append,
    List.map_append]

/-- The tags written back by `EnsureTags` and `mirrorAWSTags` when the tags of
the resource have distinct keys: the value mapping itself, in order. -/
theorem fromACKTags_insertMissing (d : Option (List (String × Option String))) (b : Tags)
    (hd : (tagKeys d).Nodup) :
    fromACKTags (insertMissing (convertToOrderedACKTags d).1 b) (convertToOrderedACKTags d).2
      = some ((insertMissing (convertToOrderedACKTags d).1 b).map
          (fun kv => (kv.1, some kv.2))) := by
  have hk : (convertToOrderedACKTags d).2 = (convertToOrderedACKTags d).1.map Prod.fst := by
    simp [convertToOrderedACKTags, List.map_map, Function.comp_def]
  have hn : ((convertToOrderedACKTags d).1.map Prod.fst).Nodup := by
    rw [← hk]
    exact hd
  obtain ⟨n, hpre⟩ := insertMissing_prefix (convertToOrderedACKTags d).1 b
  have hnd := insertMissing_nodup (convertToOrderedACKTags d).1 b hn
  rw [hk, hpre]
  rw [hpre] at hnd
  exact fromACKTags_append _ n hnd

/-- Converting written-back tags gives the value mapping and its keys. -/
theorem convertToOrderedACKTags_written (t : Tags) :
    convertToOrderedACKTags (some (t.map (fun kv => (kv.1, some kv.2))))
      = (t, t.map Prod.fst) := by
  simp [convertToOrderedACKTags, List.map_map, Function.comp_def]

/-- Counterexample to C12 as stated: `EnsureTags` leaves the caller's object
with the default tag added to its `Spec.Tags`, and `ReadOne`, through
`mirrorAWSTags`, leaves the caller's object with the backend's tag added; in
both cases the object is not what it was before the call. -/
theorem tags_written_in_place :
    EnsureTags specTagFuncs sampleDefaultTags (some { ko := some sampleImportApi })
        = .ret (some { ko := some { sampleImportApi with
                         Spec := { sampleImportApi.Spec with
                                   Tags := some [("team", some "a"),
                                     ("services.k8s.aws/controller-version", some "v1")] } } },
                none)
    ∧ sampleImportApi.Spec.Tags = some [("team", some "a")]
    ∧ (∃ ret, ReadOne observingManager specTagFuncs (some { ko := some sampleImportApi }) {}
          = .ret ret
        ∧ ret.arg = some { ko := some { sampleImportApi with
                             Spec := { sampleImportApi.Spec with
                                       Tags := some [("team", some "a"),
                                         ("aws:cloudformation:stack-name", some "s1")] } } }
        ∧ ret.arg ≠ some { ko := some sampleImportApi }) := by
  refine ⟨by decide, rfl, ?_⟩
  refine ⟨_, rfl, by decide, by decide⟩

/-- C12, amended: `EnsureTags` and `mirrorAWSTags` (also as called by
`ReadOne` on the caller's resource) store the tags they compute in the
`Spec.Tags` of the very object they are given and leave every other field of
that object as it was; `mirrorAWSTags` leaves the object as it was when the
other resource or its object is nil. This holds whatever the tag functions
are. -/
theorem tags_stored_in_argument (rm : resourceManager) (tf : TagFuncs) (defaultTags : Tags)
    (ko bko : API) (w : World) :
    EnsureTags tf defaultTags (some { ko := some ko })
        = .ret (some { ko := some { ko with Spec := { ko.Spec with
                  Tags := tf.fromACKTags
                    (Merge (tf.convertToOrderedACKTags ko.Spec.Tags).1 defaultTags)
                    (tf.convertToOrderedACKTags ko.Spec.Tags).2 } } },
                none)
    ∧ mirrorAWSTags tf (some { ko := some ko }) (some { ko := some bko })
        = some { ko := some { ko with Spec := { ko.Spec with
                  Tags := tf.fromACKTags
                    (tf.syncAWSTags (tf.convertToOrderedACKTags ko.Spec.Tags).1
                      (tf.convertToOrderedACKTags bko.Spec.Tags).1)
                    (tf.convertToOrderedACKTags ko.Spec.Tags).2 } } }
    ∧ mirrorAWSTags tf (some { ko := some ko }) none = some { ko := some ko }
    ∧ mirrorAWSTags tf (some { ko := some ko }) (some { ko := none }) = some { ko := some ko }
    ∧ (∀ ret, ReadOne rm tf (some { ko := some ko }) w = .ret ret →
        ret.arg = mirrorAWSTags tf (some { ko := some ko }) (rm.sdkFind { ko := some ko }).1) := by
  refine ⟨rfl, rfl, rfl, rfl, ?_⟩
  intro ret h
  unfold ReadOne at h
  simp only at h
  split at h
  · simp at h
  · simp only [Run.ret.injEq] at h
    rw [← h]

/-- Instance of the amended C12: `ReadOne` on the sample object returns with
the caller's object holding the tags computed by `mirrorAWSTags`, every other
field being as before. -/
theorem tags_stored_in_argument_witness :
    ∃ ret, ReadOne observingManager specTagFuncs (some { ko := some sampleImportApi }) {}
        = .ret ret
      ∧ ret.arg = mirrorAWSTags specTagFuncs (some { ko := some sampleImportApi })
          (some { ko := some sampleObservedApi }) :=
  ⟨_, rfl, (tags_stored_in_argument observingManager specTagFuncs sampleDefaultTags
      sampleImportApi sampleObservedApi {}).2.2.2.2 _ rfl⟩

/-- What the written-back tags hold, for tags of the resource with distinct
keys: every key of the resource with its value (a nil value pointer read as the
empty string), then the value of `b` for every other key of `b`. -/
theorem lookup_written (d : Option (List (String × Option String))) (b : Tags) (k : String) :
    ((insertMissing (convertToOrderedACKTags d).1 b).map
        (fun kv => (kv.1, some kv.2))).lookup k
      = ((((d.getD []).lookup k).map (fun v => v.getD "")).or (b.lookup k)).map some := by
  rw [lookup_map_snd, lookup_insertMissing]
  simp only [convertToOrderedACKTags]
  rw [lookup_map_snd (fun v : Option String => v.getD "")]

/-- C13: with the tag functions as the spec describes them, for every resource
whose tag map has distinct keys and every default tag set, `EnsureTags` returns
no error and leaves an object on which a second `EnsureTags` with the same
defaults changes nothing; every key of the original tags is still present,
with its original value; every default key that the original tags do not hold
is present with the default value; and the keys are still distinct. -/
theorem EnsureTags_idempotent (defaultTags : Tags) (ko : API)
    (hd : (tagKeys ko.Spec.Tags).Nodup) :
    ∃ ko1 : API,
      EnsureTags specTagFuncs defaultTags (some { ko := some ko })
          = .ret (some { ko := some ko1 }, none)
      ∧ EnsureTags specTagFuncs defaultTags (some { ko := some ko1 })
          = .ret (some { ko := some ko1 }, none)
      ∧ (∀ k ∈ tagKeys ko.Spec.Tags, k ∈ tagKeys ko1.Spec.Tags)
      ∧ (∀ k v, (k, some v) ∈ ko.Spec.Tags.getD [] →
          (ko1.Spec.Tags.getD []).lookup k = some (some v))
      ∧ (∀ k v, defaultTags.lookup k = some v → k ∉ tagKeys ko.Spec.Tags →
          (ko1.Spec.Tags.getD []).lookup k = some (some v))
      ∧ (tagKeys ko1.Spec.Tags).Nodup := by
  have hclosed := fromACKTags_insertMissing ko.Spec.Tags defaultTags hd
  have hkeys : (convertToOrderedACKTags ko.Spec.Tags).1.map Prod.fst = tagKeys ko.Spec.Tags := by
    simp [convertToOrderedACKTags, tagKeys, List.map_map, Function.comp_def]
  have hnd : ((insertMissing (convertToOrderedACKTags ko.Spec.Tags).1 defaultTags).map
      Prod.fst).Nodup :=
    insertMissing_nodup _ _ (by rw [hkeys]; exact hd)
  refine ⟨{ ko with Spec := { ko.Spec with
      Tags := some ((insertMissing (convertToOrderedACKTags ko.Spec.Tags).1 defaultTags).map
        (fun kv => (kv.1, some kv.2))) } }, ?_, ?_, ?_, ?_, ?_, ?_⟩
  · simp only [EnsureTags, specTagFuncs, Merge]
    rw [hclosed]
  · simp only [EnsureTags, specTagFuncs, Merge, convertToOrderedACKTags_written,
      insertMissing_idem]
    have h2 := fromACKTags_append
      (insertMissing (convertToOrderedACKTags ko.Spec.Tags).1 defaultTags) []
      (by rw [List.append_nil]; exact hnd)
    rw [List.append_nil] at h2
    rw [h2]
  · intro k hk
    have hs : (((ko.Spec.Tags.getD []).lookup k)).isSome :=
      (lookup_isSome_iff_mem_keys _ k).mpr hk
    obtain ⟨v, hv⟩ := Option.isSome_iff_exists.mp hs
    have hl := lookup_written ko.Spec.Tags defaultTags k
    rw [hv] at hl
    simp only [tagKeys, Option.getD_some]
    rw [← lookup_isSome_iff_mem_keys, hl]
    simp
  · intro k v hkv
    have hv : (ko.Spec.Tags.getD []).lookup k = some (some v) :=
      lookup_of_mem_of_nodup _ hd k (some v) hkv
    simp only [Option.getD_some]
    rw [lookup_written, hv]
    simp
  · intro k v hv hk
    have hn : (ko.Spec.Tags.getD []).lookup k = none := by
      cases h : (ko.Spec.Tags.getD []).lookup k with
      | none => rfl
      | some x =>
        exact absurd ((lookup_isSome_iff_mem_keys _ k).mp (by rw [h]; rfl)) hk
    simp only [Option.getD_some]
    rw [lookup_written, hn, hv]
    simp
  · simp only [tagKeys, Option.getD_some]
    rw [keys_map_snd]
    exact hnd

/-- Instance of C13: on the sample object `EnsureTags` adds the default tag
after the user's tag, and a second call leaves that object as it is. -/
theorem EnsureTags_idempotent_witness :
    (tagKeys sampleImportApi.Spec.Tags).Nodup
    ∧ ∃ ko1 : API,
        EnsureTags specTagFuncs sampleDefaultTags (some { ko := some sampleImportApi })
            = .ret (some { ko := some ko1 }, none)
        ∧ EnsureTags specTagFuncs sampleDefaultTags (some { ko := some ko1 })
            = .ret (some { ko := some ko1 }, none)
        ∧ (ko1.Spec.Tags.getD []).lookup "team" = some (some "a")
        ∧ (ko1.Spec.Tags.getD []).lookup "services.k8s.aws/controller-version"
            = some (some "v1") := by
  obtain ⟨ko1, h1, h2, -, h4, h5, -⟩ :=
    EnsureTags_idempotent sampleDefaultTags sampleImportApi (by decide)
  exact ⟨by decide, ko1, h1, h2, h4 "team" "a" (by decide),
    h5 "services.k8s.aws/controller-version" "v1" (by decide) (by decide)⟩

/-- C14: with the tag functions as the spec describes them, `mirrorAWSTags`
leaves the desired resource as it is when it, the observed resource, or the
object of either is nil; otherwise, for a desired tag map with distinct keys,
every key of the desired tags before the call is a key of the desired tags
after the call, with the same value. -/
theorem mirrorAWSTags_keeps_desired (a b : Option resource) :
    (a = none ∨ b = none ∨ a = some { ko := none } ∨ b = some { ko := none } →
      mirrorAWSTags specTagFuncs a b = a)
    ∧ (∀ ako bko : API, a = some { ko := some ako } → b = some { ko := some bko } →
        (tagKeys ako.Spec.Tags).Nodup →
        ∃ ako1 : API, mirrorAWSTags specTagFuncs a b = some { ko := some ako1 }
          ∧ (∀ k ∈ tagKeys ako.Spec.Tags, k ∈ tagKeys ako1.Spec.Tags)
          ∧ (∀ k v, (k, some v) ∈ ako.Spec.Tags.getD [] →
              (ako1.Spec.Tags.getD []).lookup k = some (some v))) := by
  constructor
  · rintro (h | h | h | h)
    · subst h; rfl
    · subst h; cases a <;> rfl
    · subst h; cases b <;> rfl
    · subst h
      cases a with
      | none => rfl
      | some ra =>
        obtain ⟨ako⟩ := ra
        cases ako <;> rfl
  · intro ako bko ha hb hd
    subst ha
    subst hb
    have hclosed := fromACKTags_insertMissing ako.Spec.Tags
      (convertToOrderedACKTags bko.Spec.Tags).1 hd
    refine ⟨{ ako with Spec := { ako.Spec with
        Tags := some ((insertMissing (convertToOrderedACKTags ako.Spec.Tags).1
          (convertToOrderedACKTags bko.Spec.Tags).1).map (fun kv => (kv.1, some kv.2))) } },
      ?_, ?_, ?_⟩
    · simp only [mirrorAWSTags, specTagFuncs, syncAWSTags]
      rw [hclosed]
    · intro k hk
      have hs : (((ako.Spec.Tags.getD []).lookup k)).isSome :=
        (lookup_isSome_iff_mem_keys _ k).mpr hk
      obtain ⟨v, hv⟩ := Option.isSome_iff_exists.mp hs
      have hl := lookup_written ako.Spec.Tags (convertToOrderedACKTags bko.Spec.Tags).1 k
      rw [hv] at hl
      simp only [tagKeys, Option.getD_some]
      rw [← lookup_isSome_iff_mem_keys, hl]
      simp
    · intro k v hkv
      have hv : (ako.Spec.Tags.getD []).lookup k = some (some v) :=
        lookup_of_mem_of_nodup _ hd k (some v) hkv
      simp only [Option.getD_some]
      rw [lookup_written, hv]
      simp

/-- Instance of C14: mirroring the observed sample object into the desired one
keeps the user's tag "team" with the user's value, although the backend
reports another value for it. -/
theorem mirrorAWSTags_keeps_desired_witness :
    (tagKeys sampleImportApi.Spec.Tags).Nodup
    ∧ ∃ ako1 : API,
        mirrorAWSTags specTagFuncs (some { ko := some sampleImportApi })
            (some { ko := some sampleObservedApi }) = some { ko := some ako1 }
        ∧ (ako1.Spec.Tags.getD []).lookup "team" = some (some "a") := by
  obtain ⟨ako1, h1, -, h3⟩ :=
    (mirrorAWSTags_keeps_desired (some { ko := some sampleImportApi })
      (some { ko := some sampleObservedApi })).2 _ _ rfl rfl (by decide)
  exact ⟨by decide, ako1, h1, h3 "team" "a" (by decide)⟩

/-! ## The two operation classes -/

/-- C15: no spec passes both import validation and create validation: a spec
that passes import validation has `Name` and `ProtocolType` absent and fails
create validation, a spec that passes create validation fails import
validation, and the same holds for reimport and update validation. -/
theorem validation_classes_exclusive (api : API) :
    ¬ (validateImportApiInputFields api = none ∧ validateCreateApiInputFields api = none)
    ∧ (validateImportApiInputFields api = none →
        api.Spec.Name = none ∧ api.Spec.ProtocolType = none
          ∧ validateCreateApiInputFields api ≠ none)
    ∧ (validateCreateApiInputFields api = none → validateImportApiInputFields api ≠ none)
    ∧ ¬ (validateReimportApiInputFields api = none ∧ validateUpdateApiInputFields api = none) := by
  have key : validateImportApiInputFields api = none →
      api.Spec.Name = none ∧ api.Spec.ProtocolType = none := by
    intro hv
    have hb := body_present_of_validateImportApiInputFields hv
    rw [validateImportApiInputFields_of_body api hb] at hv
    by_cases ho : otherFieldsAbsent api.Spec
    · exact ⟨ho.2.2.2.2.2.1, ho.2.2.2.2.2.2.1⟩
    · simp [ho] at hv
  have excl : ¬ (validateImportApiInputFields api = none
      ∧ validateCreateApiInputFields api = none) := by
    rintro ⟨hi, hc⟩
    obtain ⟨hn, -⟩ := key hi
    simp [validateCreateApiInputFields, hn] at hc
  refine ⟨excl, ?_, ?_, ?_⟩
  · intro hi
    obtain ⟨hn, hp⟩ := key hi
    exact ⟨hn, hp, fun hc => excl ⟨hi, hc⟩⟩
  · intro hc hi
    exact excl ⟨hi, hc⟩
  · exact excl

/-- Instance of C15: the sample import-class object passes import validation
and fails create validation; the sample create-class object passes create
validation and fails import validation. -/
theorem validation_classes_exclusive_witness :
    validateImportApiInputFields sampleImportApi = none
    ∧ validateCreateApiInputFields sampleImportApi ≠ none
    ∧ validateCreateApiInputFields sampleCreateApi = none
    ∧ validateImportApiInputFields sampleCreateApi ≠ none :=
  ⟨by decide,
   ((validation_classes_exclusive sampleImportApi).2.1 (by decide)).2.2,
   by decide,
   (validation_classes_exclusive sampleCreateApi).2.2.1 (by decide)⟩

end ApiGatewayV2
